import Mathlib

/-!
Verification development for the chat-agent repository.

The tool-call resolution engine (`src/utils.ts`), the tool registry
(`src/tools.ts`), the system-command handling of the conversation
orchestrator (`src/server.ts`) and the prompt selector (`src/prompts.ts`)
are embedded shallowly below.  Asynchronous executor functions are
modelled as pure functions; the writes performed on the output data
stream and the executor invocations are collected as explicit event and
call lists, in part order (the spec's §5 requires the stream to
serialize writes; none of the properties below depend on the
interleaving order between distinct parts).
-/

/-- A JavaScript runtime value as far as the resolution engine observes it:
either a string (the only kind the engine ever compares against) or some
other value, represented by an opaque tag.  A non-string value compares
unequal to every string, exactly as `===` does. -/
inductive RVal where
  | str (s : String)
  | other (tag : Nat)
deriving DecidableEq, Repr

/-- State of a tool invocation (the AI SDK's `"partial-call" | "call" |
"result"`; `"partial-call"` is rendered as `streamingCall`). -/
inductive InvState where
  | streamingCall
  | call
  | result
deriving DecidableEq, Repr

/-- A tool-invocation part's payload: tool name, call id, argument payload,
state, and the result field (absent until a result is attached). -/
structure ToolInvocation where
  toolName : String
  toolCallId : String
  args : RVal
  state : InvState
  result : Option RVal
deriving DecidableEq, Repr

/-- A message part: text, tool invocation, or some other part kind
(reasoning, source, ...), which the engine passes through untouched. -/
inductive MsgPart where
  | text (content : String)
  | toolInvocation (ti : ToolInvocation)
  | other (tag : Nat)
deriving DecidableEq, Repr

/-- A UI message (`Message` of `@ai-sdk/ui-utils`): id, role, content and
an optional list of parts. -/
structure Message where
  id : String
  role : String
  content : String
  parts : Option (List MsgPart)
deriving DecidableEq, Repr

/-- A core message in the neutral role/content form. -/
structure CoreMessage where
  role : String
  content : String
deriving DecidableEq, Repr

/-- Modelled from the spec: the AI SDK's `convertToCoreMessages` (library
code, not part of this repository), which the spec describes as converting
the message list "to a neutral role/content form". -/
def convertToCoreMessages (ms : List Message) : List CoreMessage :=
  ms.map fun m => { role := m.role, content := m.content }

namespace APPROVAL

/-- Modelled from the spec: the `APPROVAL.YES` sentinel of `src/shared.ts`
(the file is not under `src/`).  The spec fixes only that YES and NO are
two distinct symbolic placeholder values; the concrete text below is
immaterial to every theorem in this file. -/
def YES : String := "Yes, confirmed."

/-- Modelled from the spec: the `APPROVAL.NO` sentinel of `src/shared.ts`
(the file is not under `src/`); a fixed value distinct from `APPROVAL.YES`. -/
def NO : String := "No, denied."

end APPROVAL

/-- The execution context handed to an execution function
(`ToolExecutionOptions`): the converted message list and the call id. -/
structure ExecContext where
  messages : List CoreMessage
  toolCallId : String

/-- An execution function: original argument payload and context to result
(the `async` executor is modelled as a pure function). -/
def Exec := RVal → ExecContext → RVal

/-- The `executions` record: an association of tool names with optional
execution functions (the TS type marks every value optional, so a key may
be present with no function attached). -/
def Executions := List (String × Option Exec)

/-- `toolName in executions`: the key is present. -/
def keyRegistered (ex : Executions) (name : String) : Bool :=
  (ex.find? (fun p => p.fst == name)).isSome

/-- `executions[toolName]`: the execution function attached to the key,
if any. -/
def execFor (ex : Executions) (name : String) : Option Exec :=
  ((ex.find? (fun p => p.fst == name)).map Prod.snd).bind id

/-- A `tool_result` event written to the data stream:
`formatDataStreamPart("tool_result", { toolCallId, result })`. -/
structure ToolResultEvent where
  toolCallId : String
  result : RVal
deriving DecidableEq, Repr

/-- A record of one executor invocation (which tool, for which call id,
with which arguments). -/
structure ExecCall where
  toolName : String
  toolCallId : String
  args : RVal
deriving DecidableEq, Repr

/-- The branch structure of `processToolCalls`'s part callback
(`src/utils.ts` lines 85-124): `none` means the callback returns the part
unchanged (and writes nothing); `some (r, calls)` means it computed the
result `r`, performing the executor invocations `calls`, and falls through
to the stream write.  The inner re-check of the guard mirrors lines
101-106 of the source. -/
def resolveInvocation (ex : Executions) (messages : List Message)
    (ti : ToolInvocation) : Option (RVal × List ExecCall) :=
  if keyRegistered ex ti.toolName = false ∨ ti.state ≠ InvState.result then
    none
  else if ti.result = some (RVal.str APPROVAL.YES) then
    if keyRegistered ex ti.toolName = false ∨ ti.state ≠ InvState.result then
      none
    else
      match execFor ex ti.toolName with
      | some f =>
          some (f ti.args { messages := convertToCoreMessages messages,
                            toolCallId := ti.toolCallId },
                [{ toolName := ti.toolName, toolCallId := ti.toolCallId,
                   args := ti.args }])
      | none => some (RVal.str "Error: No execute function found on tool", [])
  else if ti.result = some (RVal.str APPROVAL.NO) then
    some (RVal.str "Error: User denied access to tool execution", [])
  else
    none

/-- Result of processing one part: the (possibly updated) part, the
stream events written for it, and the executor invocations performed. -/
structure PartOut where
  part : MsgPart
  events : List ToolResultEvent
  calls : List ExecCall
deriving Repr

/-- The part callback of `processToolCalls` (`src/utils.ts` lines 83-142):
non-tool-invocation parts pass through; for a tool-invocation part, if a
result was computed, one `tool_result` event is written and the part is
returned with the new result spliced in. -/
def processPart (ex : Executions) (messages : List Message) : MsgPart → PartOut
  | MsgPart.toolInvocation ti =>
    match resolveInvocation ex messages ti with
    | none => { part := MsgPart.toolInvocation ti, events := [], calls := [] }
    | some (r, calls) =>
        { part := MsgPart.toolInvocation { ti with result := some r },
          events := [{ toolCallId := ti.toolCallId, result := r }],
          calls := calls }
  | p => { part := p, events := [], calls := [] }

/-- Aggregate output of `processToolCalls`: the returned message list and
the stream events and executor invocations performed while producing it. -/
structure ProcOut where
  msgs : List Message
  events : List ToolResultEvent
  calls : List ExecCall
deriving Repr

/-- `processToolCalls` (`src/utils.ts` lines 51-148).  `none` models the
`TypeError` the source raises on an empty message list (reading `.parts`
of `undefined`); with no parts on the last message the original list is
returned; otherwise every part of the last message is processed and the
result is all messages but the last, plus the last message with its parts
replaced. -/
def processToolCalls (ex : Executions) (messages : List Message) :
    Option ProcOut :=
  match messages.getLast? with
  | none => none
  | some lastMessage =>
    match lastMessage.parts with
    | none => some { msgs := messages, events := [], calls := [] }
    | some parts =>
      let outs := parts.map (processPart ex messages)
      some { msgs := messages.dropLast ++
               [{ lastMessage with parts := some (outs.map PartOut.part) }],
             events := (outs.map PartOut.events).flatten,
             calls := (outs.map PartOut.calls).flatten }

/-- The call ids of the tool-invocation parts of a part list; the spec's
data model (§3) requires them to be pairwise distinct. -/
def partCallIds (ps : List MsgPart) : List String :=
  ps.filterMap fun p =>
    match p with
    | MsgPart.toolInvocation ti => some ti.toolCallId
    | _ => none

/-- A part the engine passes through unchanged: not a registered key, not
in result state, or carrying a result that is neither sentinel. -/
def untouchedPart (ex : Executions) : MsgPart → Bool
  | MsgPart.toolInvocation ti =>
      !(keyRegistered ex ti.toolName) || decide (ti.state ≠ InvState.result) ||
        (decide (ti.result ≠ some (RVal.str APPROVAL.YES)) &&
         decide (ti.result ≠ some (RVal.str APPROVAL.NO)))
  | _ => true

/-- The execution function for `getWeatherInformation` (`src/tools.ts`
lines 192-197): returns the mock weather string for the requested city.
The `{ city }` argument object is rendered here as the city string itself
(the parameter schema guarantees a string payload; a non-string payload is
returned unchanged). -/
def weatherExec : Exec := fun args _ =>
  match args with
  | RVal.str city => RVal.str ("The weather in " ++ city ++ " is sunny")
  | RVal.other t => RVal.other t

/-- The `executions` registry of `src/tools.ts` (lines 184-198): the single
confirmation-required tool `getWeatherInformation`. -/
def executionsReg : Executions :=
  [("getWeatherInformation", some weatherExec)]

/-- A key with an attached execution function is in particular present. -/
theorem execFor_some_keyRegistered {ex : Executions} {name : String} {f : Exec}
    (h : execFor ex name = some f) : keyRegistered ex name = true := by
  unfold execFor at h
  unfold keyRegistered
  cases hf : ex.find? (fun p => p.fst == name) with
  | none => rw [hf] at h; simp at h
  | some v => simp

/-- A part satisfying the pass-through guard is returned unchanged, with no
stream write and no executor invocation. -/
theorem processPart_untouched {ex : Executions} (ms : List Message)
    {p : MsgPart} (h : untouchedPart ex p = true) :
    processPart ex ms p = { part := p, events := [], calls := [] } := by
  cases p with
  | text s => rfl
  | other t => rfl
  | toolInvocation ti =>
    have hres : resolveInvocation ex ms ti = none := by
      unfold untouchedPart at h
      unfold resolveInvocation
      simp only [Bool.or_eq_true, Bool.and_eq_true, Bool.not_eq_true',
        decide_eq_true_eq] at h
      rcases h with (h | h) | ⟨h1, h2⟩
      · rw [if_pos (Or.inl h)]
      · rw [if_pos (Or.inr h)]
      · by_cases hg : keyRegistered ex ti.toolName = false ∨
            ti.state ≠ InvState.result
        · rw [if_pos hg]
        · rw [if_neg hg, if_neg h1, if_neg h2]
    simp [processPart, hres]

/-- The YES branch with an attached execution function: the executor is
invoked with the original arguments and the converted-messages context. -/
theorem resolveInvocation_yes {ex : Executions} (ms : List Message)
    {ti : ToolInvocation} {f : Exec}
    (hreg : keyRegistered ex ti.toolName = true)
    (hstate : ti.state = InvState.result)
    (hres : ti.result = some (RVal.str APPROVAL.YES))
    (hexec : execFor ex ti.toolName = some f) :
    resolveInvocation ex ms ti =
      some (f ti.args { messages := convertToCoreMessages ms,
                        toolCallId := ti.toolCallId },
            [{ toolName := ti.toolName, toolCallId := ti.toolCallId,
               args := ti.args }]) := by
  have hg : ¬ (keyRegistered ex ti.toolName = false ∨
      ti.state ≠ InvState.result) := by
    simp [hreg, hstate]
  unfold resolveInvocation
  rw [if_neg hg, if_pos hres, if_neg hg, hexec]

/-- The NO branch: the stored result becomes the fixed denial string and no
executor is invoked. -/
theorem resolveInvocation_no {ex : Executions} (ms : List Message)
    {ti : ToolInvocation}
    (hreg : keyRegistered ex ti.toolName = true)
    (hstate : ti.state = InvState.result)
    (hres : ti.result = some (RVal.str APPROVAL.NO)) :
    resolveInvocation ex ms ti =
      some (RVal.str "Error: User denied access to tool execution", []) := by
  have hg : ¬ (keyRegistered ex ti.toolName = false ∨
      ti.state ≠ InvState.result) := by
    simp [hreg, hstate]
  have hne : ¬ ti.result = some (RVal.str APPROVAL.YES) := by
    rw [hres]
    simp [APPROVAL.YES, APPROVAL.NO]
  unfold resolveInvocation
  rw [if_neg hg, if_neg hne, if_pos hres]

/-- Whenever the resolution computed a result, the part is returned with the
result spliced in and exactly one `tool_result` event is written for it. -/
theorem processPart_resolved {ex : Executions} {ms : List Message}
    {ti : ToolInvocation} {r : RVal} {cs : List ExecCall}
    (h : resolveInvocation ex ms ti = some (r, cs)) :
    processPart ex ms (MsgPart.toolInvocation ti) =
      { part := MsgPart.toolInvocation { ti with result := some r },
        events := [{ toolCallId := ti.toolCallId, result := r }],
        calls := cs } := by
  simp [processPart, h]

/-- Every stream event produced for a part carries that part's own call id. -/
theorem processPart_event_callId {ex : Executions} {ms : List Message}
    {p : MsgPart} {e : ToolResultEvent}
    (h : e ∈ (processPart ex ms p).events) :
    ∃ ti, p = MsgPart.toolInvocation ti ∧ e.toolCallId = ti.toolCallId := by
  cases p with
  | text s => simp [processPart] at h
  | other t => simp [processPart] at h
  | toolInvocation ti =>
    refine ⟨ti, rfl, ?_⟩
    cases hres : resolveInvocation ex ms ti with
    | none => simp [processPart, hres] at h
    | some rc =>
      simp [processPart, hres] at h
      rw [h]

/-- Every executor invocation recorded by the resolution carries the
invocation's own call id. -/
theorem resolveInvocation_call_callId {ex : Executions} {ms : List Message}
    {ti : ToolInvocation} {r : RVal} {cs : List ExecCall}
    (h : resolveInvocation ex ms ti = some (r, cs)) {c : ExecCall}
    (hc : c ∈ cs) : c.toolCallId = ti.toolCallId := by
  unfold resolveInvocation at h
  split_ifs at h with h1 h2 h3
  · cases hf : execFor ex ti.toolName with
    | some f =>
      rw [hf] at h
      simp only [Option.some.injEq, Prod.mk.injEq] at h
      rw [← h.2] at hc
      simp at hc
      rw [hc]
    | none =>
      rw [hf] at h
      simp only [Option.some.injEq, Prod.mk.injEq] at h
      rw [← h.2] at hc
      simp at hc
  · simp only [Option.some.injEq, Prod.mk.injEq] at h
    rw [← h.2] at hc
    simp at hc

/-- Every executor invocation performed for a part carries that part's own
call id. -/
theorem processPart_call_callId {ex : Executions} {ms : List Message}
    {p : MsgPart} {c : ExecCall}
    (h : c ∈ (processPart ex ms p).calls) :
    ∃ ti, p = MsgPart.toolInvocation ti ∧ c.toolCallId = ti.toolCallId := by
  cases p with
  | text s => simp [processPart] at h
  | other t => simp [processPart] at h
  | toolInvocation ti =>
    refine ⟨ti, rfl, ?_⟩
    cases hres : resolveInvocation ex ms ti with
    | none => simp [processPart, hres] at h
    | some rc =>
      obtain ⟨r, cs⟩ := rc
      simp only [processPart, hres] at h
      exact resolveInvocation_call_callId hres h

/-- `partCallIds` distributes over append. -/
theorem partCallIds_append (a b : List MsgPart) :
    partCallIds (a ++ b) = partCallIds a ++ partCallIds b := by
  simp [partCallIds, List.filterMap_append]

/-- No part of `ps` owns call id `c`, hence no stream event for `c` arises
from processing `ps`. -/
theorem events_filter_nil (ex : Executions) (ms : List Message) (c : String)
    (ps : List MsgPart) (h : c ∉ partCallIds ps) :
    (((ps.map (processPart ex ms)).map PartOut.events).flatten).filter
      (fun e => e.toolCallId == c) = [] := by
  induction ps with
  | nil => rfl
  | cons p rest ih =>
    have hc : c ∉ partCallIds rest := by
      intro hmem
      exact h (by
        cases p with
        | toolInvocation ti => exact List.mem_cons_of_mem _ hmem
        | text s => exact hmem
        | other t => exact hmem)
    simp only [List.map_cons, List.flatten_cons, List.filter_append]
    rw [ih hc, List.append_nil]
    rw [List.filter_eq_nil_iff]
    intro e he
    obtain ⟨ti, hp, hid⟩ := processPart_event_callId he
    subst hp
    have hne : ti.toolCallId ≠ c := by
      intro heq
      exact h (by simp [partCallIds, heq])
    simp [hid, hne]

/-- No part of `ps` owns call id `c`, hence no executor invocation for `c`
arises from processing `ps`. -/
theorem calls_filter_nil (ex : Executions) (ms : List Message) (c : String)
    (ps : List MsgPart) (h : c ∉ partCallIds ps) :
    (((ps.map (processPart ex ms)).map PartOut.calls).flatten).filter
      (fun e => e.toolCallId == c) = [] := by
  induction ps with
  | nil => rfl
  | cons p rest ih =>
    have hc : c ∉ partCallIds rest := by
      intro hmem
      exact h (by
        cases p with
        | toolInvocation ti => exact List.mem_cons_of_mem _ hmem
        | text s => exact hmem
        | other t => exact hmem)
    simp only [List.map_cons, List.flatten_cons, List.filter_append]
    rw [ih hc, List.append_nil]
    rw [List.filter_eq_nil_iff]
    intro e he
    obtain ⟨ti, hp, hid⟩ := processPart_call_callId he
    subst hp
    have hne : ti.toolCallId ≠ c := by
      intro heq
      exact h (by simp [partCallIds, heq])
    simp [hid, hne]

/-- Computation shape of `processToolCalls` on a history decomposed as
`init ++ [last]` with a present part list. -/
theorem processToolCalls_concat (ex : Executions) (init : List Message)
    (last : Message) (ps : List MsgPart) (h : last.parts = some ps) :
    processToolCalls ex (init ++ [last]) =
      some { msgs := init ++
               [{ last with
                  parts := some ((ps.map (processPart ex (init ++ [last]))).map PartOut.part) }],
             events :=
               ((ps.map (processPart ex (init ++ [last]))).map PartOut.events).flatten,
             calls :=
               ((ps.map (processPart ex (init ++ [last]))).map PartOut.calls).flatten } := by
  have h1 : (init ++ [last]).getLast? = some last := by
    rw [List.getLast?_concat]
  have h2 : (init ++ [last]).dropLast = init := by
    rw [List.dropLast_concat]
  unfold processToolCalls
  rw [h1]
  simp only [h, h2]

/-- From uniqueness of the call ids of `pre ++ [invocation ti] ++ post`,
`ti`'s call id occurs in neither `pre` nor `post`. -/
theorem callId_not_around {pre post : List MsgPart} {ti : ToolInvocation}
    (huniq : (partCallIds (pre ++ MsgPart.toolInvocation ti :: post)).Nodup) :
    ti.toolCallId ∉ partCallIds pre ∧ ti.toolCallId ∉ partCallIds post := by
  rw [partCallIds_append] at huniq
  have hcons : partCallIds (MsgPart.toolInvocation ti :: post) =
      ti.toolCallId :: partCallIds post := rfl
  rw [hcons] at huniq
  rw [List.nodup_append] at huniq
  obtain ⟨_, h2, h3⟩ := huniq
  constructor
  · intro hmem
    exact h3 hmem (List.mem_cons_self _ _)
  · exact (List.nodup_cons.mp h2).1

/-- Replacing a message's `parts` field by its own value is the identity. -/
theorem message_eta (m : Message) (lp : Option (List MsgPart))
    (hp : m.parts = lp) : ({ m with parts := lp } : Message) = m := by
  subst hp
  rfl

/-- C1: for a last message containing a tool-invocation part in result
state whose result is the YES sentinel and whose tool name carries a
registered execution function, `processToolCalls` replaces that part's
result with the executor's return value — the executor being invoked with
the original arguments and a context holding the converted message list
and the call id — and writes exactly one `tool_result` event whose call id
is that part's call id (assuming the spec's data-model invariant that call
ids are unique within the message). -/
theorem processToolCalls_resolves_yes (ex : Executions) (init : List Message)
    (last : Message) (pre post : List MsgPart) (ti : ToolInvocation) (f : Exec)
    (hparts : last.parts = some (pre ++ MsgPart.toolInvocation ti :: post))
    (hstate : ti.state = InvState.result)
    (hres : ti.result = some (RVal.str APPROVAL.YES))
    (hexec : execFor ex ti.toolName = some f)
    (huniq : (partCallIds (pre ++ MsgPart.toolInvocation ti :: post)).Nodup) :
    ∃ out, processToolCalls ex (init ++ [last]) = some out ∧
      out.msgs = init ++
        [{ last with
           parts := some
             (pre.map (fun p => (processPart ex (init ++ [last]) p).part) ++
              MsgPart.toolInvocation { ti with
                result := some (f ti.args
                  { messages := convertToCoreMessages (init ++ [last]),
                    toolCallId := ti.toolCallId }) } ::
              post.map (fun p => (processPart ex (init ++ [last]) p).part)) }] ∧
      out.events.filter (fun e => e.toolCallId == ti.toolCallId) =
        [{ toolCallId := ti.toolCallId,
           result := f ti.args
             { messages := convertToCoreMessages (init ++ [last]),
               toolCallId := ti.toolCallId } }] := by
  have hreg : keyRegistered ex ti.toolName = true :=
    execFor_some_keyRegistered hexec
  have hmid := processPart_resolved
    (resolveInvocation_yes (init ++ [last]) hreg hstate hres hexec)
  obtain ⟨hpre, hpost⟩ := callId_not_around huniq
  refine ⟨_, processToolCalls_concat ex init last _ hparts, ?_, ?_⟩
  · simp only [List.map_append, List.map_cons, hmid, List.map_map]
    rfl
  · simp only [List.map_append, List.map_cons, hmid, List.flatten_append,
      List.flatten_cons, List.filter_append]
    rw [events_filter_nil ex (init ++ [last]) ti.toolCallId pre hpre,
      events_filter_nil ex (init ++ [last]) ti.toolCallId post hpost]
    simp

/-- Witness for C1: the spec's end-to-end weather scenario, with the
executions registry of `src/tools.ts`. -/
theorem processToolCalls_resolves_yes_witness :
    ∃ out,
      processToolCalls executionsReg
        ([{ id := "m1", role := "user", content := "What is the weather in Paris?",
            parts := none }] ++
         [{ id := "m2", role := "assistant", content := "",
            parts := some [MsgPart.toolInvocation
              { toolName := "getWeatherInformation", toolCallId := "call-1",
                args := RVal.str "Paris", state := InvState.result,
                result := some (RVal.str APPROVAL.YES) }] }]) = some out ∧
      out.msgs = [{ id := "m1", role := "user",
                    content := "What is the weather in Paris?", parts := none }] ++
        [{ id := "m2", role := "assistant", content := "",
           parts := some [MsgPart.toolInvocation
             { toolName := "getWeatherInformation", toolCallId := "call-1",
               args := RVal.str "Paris", state := InvState.result,
               result := some (RVal.str "The weather in Paris is sunny") }] }] ∧
      out.events.filter (fun e => e.toolCallId == "call-1") =
        [{ toolCallId := "call-1",
           result := RVal.str "The weather in Paris is sunny" }] := by
  have h := processToolCalls_resolves_yes executionsReg
    [{ id := "m1", role := "user", content := "What is the weather in Paris?",
       parts := none }]
    { id := "m2", role := "assistant", content := "",
      parts := some [MsgPart.toolInvocation
        { toolName := "getWeatherInformation", toolCallId := "call-1",
          args := RVal.str "Paris", state := InvState.result,
          result := some (RVal.str APPROVAL.YES) }] }
    [] []
    { toolName := "getWeatherInformation", toolCallId := "call-1",
      args := RVal.str "Paris", state := InvState.result,
      result := some (RVal.str APPROVAL.YES) }
    weatherExec rfl rfl rfl rfl (by decide)
  exact h

/-- C2: on a non-empty history the engine returns a list of the same
length whose every message but the last is identical to the input, in the
original order; the last message differs at most in its `parts` field. -/
theorem processToolCalls_frame (ex : Executions) (ms : List Message)
    (h : ms ≠ []) :
    ∃ out lm lp, ms.getLast? = some lm ∧
      processToolCalls ex ms = some out ∧
      out.msgs.length = ms.length ∧
      out.msgs.dropLast = ms.dropLast ∧
      out.msgs = ms.dropLast ++ [{ lm with parts := lp }] := by
  have hlast := List.getLast?_eq_getLast_of_ne_nil h
  have hdecomp : ms.dropLast ++ [ms.getLast h] = ms :=
    List.dropLast_append_getLast h
  cases hp : (ms.getLast h).parts with
  | none =>
    refine ⟨{ msgs := ms, events := [], calls := [] }, ms.getLast h,
      (ms.getLast h).parts, hlast, ?_, rfl, rfl, ?_⟩
    · simp only [processToolCalls, hlast, hp]
    · rw [message_eta (ms.getLast h) (ms.getLast h).parts rfl]
      exact hdecomp.symm
  | some ps =>
    have hc := processToolCalls_concat ex ms.dropLast (ms.getLast h) ps hp
    rw [hdecomp] at hc
    refine ⟨_, ms.getLast h,
      some ((ps.map (processPart ex ms)).map PartOut.part), hlast, hc, ?_, ?_, rfl⟩
    · conv_rhs => rw [← hdecomp]
      simp
    · simp

/-- Witness for C2 at a concrete two-message history. -/
theorem processToolCalls_frame_witness :
    ([{ id := "m1", role := "user", content := "hi", parts := none },
      { id := "m2", role := "assistant", content := "", parts := some [MsgPart.text "ok"] }]
        : List Message) ≠ [] ∧
    ∃ out lm lp,
      ([{ id := "m1", role := "user", content := "hi", parts := none },
        { id := "m2", role := "assistant", content := "", parts := some [MsgPart.text "ok"] }]
          : List Message).getLast? = some lm ∧
      processToolCalls executionsReg
        [{ id := "m1", role := "user", content := "hi", parts := none },
         { id := "m2", role := "assistant", content := "", parts := some [MsgPart.text "ok"] }] =
        some out ∧
      out.msgs.length =
        ([{ id := "m1", role := "user", content := "hi", parts := none },
          { id := "m2", role := "assistant", content := "", parts := some [MsgPart.text "ok"] }]
            : List Message).length ∧
      out.msgs.dropLast =
        ([{ id := "m1", role := "user", content := "hi", parts := none },
          { id := "m2", role := "assistant", content := "", parts := some [MsgPart.text "ok"] }]
            : List Message).dropLast ∧
      out.msgs =
        ([{ id := "m1", role := "user", content := "hi", parts := none },
          { id := "m2", role := "assistant", content := "", parts := some [MsgPart.text "ok"] }]
            : List Message).dropLast ++ [{ lm with parts := lp }] :=
  ⟨by decide,
   processToolCalls_frame executionsReg
     [{ id := "m1", role := "user", content := "hi", parts := none },
      { id := "m2", role := "assistant", content := "", parts := some [MsgPart.text "ok"] }]
     (by decide)⟩

/-- C3: if every tool-invocation part of the last message is a pass-through
part (unregistered key, not in result state, or carrying a non-sentinel
result), the engine returns the input unchanged with no stream write and
no executor invocation, and a second run on its own output again returns
it unchanged with no write and no invocation. -/
theorem processToolCalls_idem (ex : Executions) (ms : List Message)
    (h : ms ≠ [])
    (hp : ∀ lm, ms.getLast? = some lm → ∀ ps, lm.parts = some ps →
          ∀ p ∈ ps, untouchedPart ex p = true) :
    processToolCalls ex ms = some { msgs := ms, events := [], calls := [] } ∧
    ∀ out, processToolCalls ex ms = some out →
      processToolCalls ex out.msgs =
        some { msgs := out.msgs, events := [], calls := [] } := by
  have hlast := List.getLast?_eq_getLast_of_ne_nil h
  have hdecomp : ms.dropLast ++ [ms.getLast h] = ms :=
    List.dropLast_append_getLast h
  have main : processToolCalls ex ms = some { msgs := ms, events := [], calls := [] } := by
    cases hps : (ms.getLast h).parts with
    | none => simp only [processToolCalls, hlast, hps]
    | some ps =>
      have hmapped : ps.map (processPart ex ms) =
          ps.map (fun p => ({ part := p, events := [], calls := [] } : PartOut)) :=
        List.map_congr_left
          (fun p hpmem => processPart_untouched ms (hp (ms.getLast h) hlast ps hps p hpmem))
      have hparts2 : (ps.map (processPart ex ms)).map PartOut.part = ps := by
        rw [hmapped, List.map_map]
        exact List.map_id ps
      have hconst : ∀ (l : List MsgPart),
          (List.map (fun _ => ([] : List ToolResultEvent)) l).flatten = [] := by
        intro l
        induction l with
        | nil => rfl
        | cons x xs ih => simp [ih]
      have hconst2 : ∀ (l : List MsgPart),
          (List.map (fun _ => ([] : List ExecCall)) l).flatten = [] := by
        intro l
        induction l with
        | nil => rfl
        | cons x xs ih => simp [ih]
      have hev : ((ps.map (processPart ex ms)).map PartOut.events).flatten = [] := by
        rw [hmapped, List.map_map]
        exact hconst ps
      have hca : ((ps.map (processPart ex ms)).map PartOut.calls).flatten = [] := by
        rw [hmapped, List.map_map]
        exact hconst2 ps
      have hc := processToolCalls_concat ex ms.dropLast (ms.getLast h) ps hps
      rw [hdecomp] at hc
      rw [hparts2, hev, hca, message_eta (ms.getLast h) (some ps) hps, hdecomp] at hc
      exact hc
  refine ⟨main, ?_⟩
  intro out hout
  rw [main] at hout
  have : out = { msgs := ms, events := [], calls := [] } := by
    injection hout with h1
    exact h1.symm
  rw [this]
  exact main

/-- The last message of the C3 witness history: a text part, a resolved
weather invocation with a concrete result, a still-pending invocation, and
a YES-approved invocation naming an unregistered tool. -/
def msgIdemLast : Message :=
  { id := "m2", role := "assistant", content := "",
    parts := some
      [MsgPart.text "done",
       MsgPart.toolInvocation
         { toolName := "getWeatherInformation", toolCallId := "call-a",
           args := RVal.str "Paris", state := InvState.result,
           result := some (RVal.str "The weather in Paris is sunny") },
       MsgPart.toolInvocation
         { toolName := "getWeatherInformation", toolCallId := "call-b",
           args := RVal.str "Kyoto", state := InvState.call,
           result := none },
       MsgPart.toolInvocation
         { toolName := "searchDatabase", toolCallId := "call-c",
           args := RVal.str "q", state := InvState.result,
           result := some (RVal.str APPROVAL.YES) }] }

/-- Witness for C3: a last message whose tool-invocation parts carry a
concrete result, are still awaiting a result, or name an unregistered
tool; the engine returns the history unchanged with no write and no
invocation. -/
theorem processToolCalls_idem_witness :
    ([{ id := "m1", role := "user", content := "hi", parts := none },
      msgIdemLast] : List Message) ≠ [] ∧
    processToolCalls executionsReg
      [{ id := "m1", role := "user", content := "hi", parts := none },
       msgIdemLast] =
      some { msgs := [{ id := "m1", role := "user", content := "hi", parts := none },
                      msgIdemLast],
             events := [], calls := [] } := by
  refine ⟨by decide, ?_⟩
  have h := processToolCalls_idem executionsReg
    [{ id := "m1", role := "user", content := "hi", parts := none },
     msgIdemLast]
    (by decide)
    (by
      intro lm hlm ps hps
      injection hlm with h1
      rw [← h1] at hps
      injection hps with h2
      rw [← h2]
      decide)
  exact h.1

/-- A NO-approved invocation part of the C4 counterexample. -/
def msgNoLast : Message :=
  { id := "m2", role := "assistant", content := "",
    parts := some
      [MsgPart.toolInvocation
        { toolName := "getWeatherInformation", toolCallId := "call-2",
          args := RVal.str "Paris", state := InvState.result,
          result := some (RVal.str APPROVAL.NO) }] }

/-- C4 counterexample: on a denied invocation the engine stores the string
"Error: User denied access to tool execution", which is not the string
"user denied access to tool execution" the claim states. -/
theorem processToolCalls_denial_counterexample :
    processToolCalls executionsReg
      [{ id := "m1", role := "user", content := "hi", parts := none },
       msgNoLast] =
      some { msgs :=
               [{ id := "m1", role := "user", content := "hi", parts := none },
                { msgNoLast with
                  parts := some [MsgPart.toolInvocation
                      { toolName := "getWeatherInformation", toolCallId := "call-2",
                        args := RVal.str "Paris", state := InvState.result,
                        result := some (RVal.str "Error: User denied access to tool execution") }] }],
             events := [{ toolCallId := "call-2",
                          result := RVal.str "Error: User denied access to tool execution" }],
             calls := [] } ∧
    "Error: User denied access to tool execution" ≠
      "user denied access to tool execution" :=
  ⟨rfl, by decide⟩

/-- C4 as amended: for a tool-invocation part of the last message in
result state, with a registered key and the NO sentinel as result, the
engine replaces the result with the fixed denial string
"Error: User denied access to tool execution" and performs no executor
invocation for that part (assuming unique call ids). -/
theorem processToolCalls_no_denies (ex : Executions) (init : List Message)
    (last : Message) (pre post : List MsgPart) (ti : ToolInvocation)
    (hparts : last.parts = some (pre ++ MsgPart.toolInvocation ti :: post))
    (hstate : ti.state = InvState.result)
    (hres : ti.result = some (RVal.str APPROVAL.NO))
    (hreg : keyRegistered ex ti.toolName = true)
    (huniq : (partCallIds (pre ++ MsgPart.toolInvocation ti :: post)).Nodup) :
    ∃ out, processToolCalls ex (init ++ [last]) = some out ∧
      out.msgs = init ++
        [{ last with
           parts := some
             (pre.map (fun p => (processPart ex (init ++ [last]) p).part) ++
              MsgPart.toolInvocation { ti with
                result := some (RVal.str "Error: User denied access to tool execution") } ::
              post.map (fun p => (processPart ex (init ++ [last]) p).part)) }] ∧
      out.calls.filter (fun c => c.toolCallId == ti.toolCallId) = [] := by
  have hmid := processPart_resolved
    (resolveInvocation_no (init ++ [last]) hreg hstate hres)
  obtain ⟨hpre, hpost⟩ := callId_not_around huniq
  refine ⟨_, processToolCalls_concat ex init last _ hparts, ?_, ?_⟩
  · simp only [List.map_append, List.map_cons, hmid, List.map_map]
    rfl
  · simp only [List.map_append, List.map_cons, hmid, List.flatten_append,
      List.flatten_cons, List.filter_append]
    rw [calls_filter_nil ex (init ++ [last]) ti.toolCallId pre hpre,
      calls_filter_nil ex (init ++ [last]) ti.toolCallId post hpost]
    simp

/-- Witness for the amended C4 at the concrete denied invocation. -/
theorem processToolCalls_no_denies_witness :
    ∃ out,
      processToolCalls executionsReg
        ([{ id := "m1", role := "user", content := "hi", parts := none }] ++
         [msgNoLast]) = some out ∧
      out.msgs =
        [{ id := "m1", role := "user", content := "hi", parts := none }] ++
        [{ msgNoLast with
           parts := some ([] ++
              MsgPart.toolInvocation
                { toolName := "getWeatherInformation", toolCallId := "call-2",
                  args := RVal.str "Paris", state := InvState.result,
                  result := some (RVal.str "Error: User denied access to tool execution") } ::
              []) }] ∧
      out.calls.filter (fun c => c.toolCallId == "call-2") = [] := by
  have h := processToolCalls_no_denies executionsReg
    [{ id := "m1", role := "user", content := "hi", parts := none }]
    msgNoLast [] []
    { toolName := "getWeatherInformation", toolCallId := "call-2",
      args := RVal.str "Paris", state := InvState.result,
      result := some (RVal.str APPROVAL.NO) }
    rfl rfl rfl rfl (by decide)
  exact h

/-- A registered, result-state invocation whose result is already a
concrete value: the engine passes it through. -/
theorem resolveInvocation_nonsentinel {ex : Executions} {ms : List Message}
    {ti : ToolInvocation}
    (hy : ti.result ≠ some (RVal.str APPROVAL.YES))
    (hn : ti.result ≠ some (RVal.str APPROVAL.NO)) :
    resolveInvocation ex ms ti = none := by
  unfold resolveInvocation
  by_cases hg : keyRegistered ex ti.toolName = false ∨ ti.state ≠ InvState.result
  · rw [if_pos hg]
  · rw [if_neg hg, if_neg hy, if_neg hn]

/-- A registered, result-state invocation carrying either sentinel always
resolves to some computed result. -/
theorem resolveInvocation_sentinel_some {ex : Executions} (ms : List Message)
    {ti : ToolInvocation}
    (hreg : keyRegistered ex ti.toolName = true)
    (hstate : ti.state = InvState.result)
    (hsent : ti.result = some (RVal.str APPROVAL.YES) ∨
             ti.result = some (RVal.str APPROVAL.NO)) :
    ∃ r cs, resolveInvocation ex ms ti = some (r, cs) := by
  rcases hsent with hy | hn
  · cases hf : execFor ex ti.toolName with
    | some f =>
      exact ⟨_, _, resolveInvocation_yes ms hreg hstate hy hf⟩
    | none =>
      have hg : ¬ (keyRegistered ex ti.toolName = false ∨
          ti.state ≠ InvState.result) := by
        simp [hreg, hstate]
      refine ⟨RVal.str "Error: No execute function found on tool", [], ?_⟩
      unfold resolveInvocation
      rw [if_neg hg, if_pos hy, if_neg hg, hf]
  · exact ⟨_, _, resolveInvocation_no ms hreg hstate hn⟩

/-- A registered, result-state invocation whose result is an already
concrete string: the C5 counterexample input. -/
def msgDoneLast : Message :=
  { id := "m2", role := "assistant", content := "",
    parts := some
      [MsgPart.toolInvocation
        { toolName := "getWeatherInformation", toolCallId := "call-3",
          args := RVal.str "Paris", state := InvState.result,
          result := some (RVal.str "sunny") }] }

/-- C5 counterexample: a registered, result-state part whose result is the
concrete value "sunny" passes through with NO `tool_result` event written
(the source returns the part before reaching the stream write), refuting
the claim that an event is emitted for such parts as well. -/
theorem processToolCalls_passthrough_no_event :
    processToolCalls executionsReg
      [{ id := "m1", role := "user", content := "hi", parts := none },
       msgDoneLast] =
      some { msgs := [{ id := "m1", role := "user", content := "hi", parts := none },
                      msgDoneLast],
             events := [], calls := [] } := rfl

/-- C5 as amended: for a tool-invocation part of the last message with a
registered key and result state (and unique call ids), a `tool_result`
event carrying that part's call id is written exactly when the part's
result is the YES or NO sentinel: in that case exactly one event is
written, its payload is the very result stored back into the part, and
only the result field of the part changes; for an already-resolved or
unrecognized (non-sentinel) result value no event is written and the part
is returned unchanged. -/
theorem processToolCalls_event_iff_sentinel (ex : Executions)
    (init : List Message) (last : Message) (pre post : List MsgPart)
    (ti : ToolInvocation)
    (hparts : last.parts = some (pre ++ MsgPart.toolInvocation ti :: post))
    (hstate : ti.state = InvState.result)
    (hreg : keyRegistered ex ti.toolName = true)
    (huniq : (partCallIds (pre ++ MsgPart.toolInvocation ti :: post)).Nodup) :
    ∃ out, processToolCalls ex (init ++ [last]) = some out ∧
      ((ti.result ≠ some (RVal.str APPROVAL.YES) ∧
        ti.result ≠ some (RVal.str APPROVAL.NO)) →
          out.events.filter (fun e => e.toolCallId == ti.toolCallId) = [] ∧
          out.msgs = init ++
            [{ last with
               parts := some
                 (pre.map (fun p => (processPart ex (init ++ [last]) p).part) ++
                  MsgPart.toolInvocation ti ::
                  post.map (fun p => (processPart ex (init ++ [last]) p).part)) }]) ∧
      ((ti.result = some (RVal.str APPROVAL.YES) ∨
        ti.result = some (RVal.str APPROVAL.NO)) →
          ∃ r, out.events.filter (fun e => e.toolCallId == ti.toolCallId) =
              [{ toolCallId := ti.toolCallId, result := r }] ∧
            out.msgs = init ++
              [{ last with
                 parts := some
                   (pre.map (fun p => (processPart ex (init ++ [last]) p).part) ++
                    MsgPart.toolInvocation { ti with result := some r } ::
                    post.map (fun p => (processPart ex (init ++ [last]) p).part)) }]) := by
  obtain ⟨hpre, hpost⟩ := callId_not_around huniq
  refine ⟨_, processToolCalls_concat ex init last _ hparts, ?_, ?_⟩
  · intro ⟨hy, hn⟩
    have hmid : processPart ex (init ++ [last]) (MsgPart.toolInvocation ti) =
        { part := MsgPart.toolInvocation ti, events := [], calls := [] } :=
      processPart_untouched (init ++ [last])
        (by
          unfold untouchedPart
          simp [hy, hn])
    constructor
    · simp only [List.map_append, List.map_cons, hmid, List.flatten_append,
        List.flatten_cons, List.filter_append]
      rw [events_filter_nil ex (init ++ [last]) ti.toolCallId pre hpre,
        events_filter_nil ex (init ++ [last]) ti.toolCallId post hpost]
      simp
    · simp only [List.map_append, List.map_cons, hmid, List.map_map]
      rfl
  · intro hsent
    obtain ⟨r, cs, hres⟩ :=
      resolveInvocation_sentinel_some (init ++ [last]) hreg hstate hsent
    have hmid := processPart_resolved hres
    refine ⟨r, ?_, ?_⟩
    · simp only [List.map_append, List.map_cons, hmid, List.flatten_append,
        List.flatten_cons, List.filter_append]
      rw [events_filter_nil ex (init ++ [last]) ti.toolCallId pre hpre,
        events_filter_nil ex (init ++ [last]) ti.toolCallId post hpost]
      simp
    · simp only [List.map_append, List.map_cons, hmid, List.map_map]
      rfl

/-- Witness for the amended C5: the pass-through invocation (concrete
result "sunny") emits no event and is returned unchanged; a YES-sentinel
invocation emits exactly one event whose payload is the result stored back
into the part. -/
theorem processToolCalls_event_iff_sentinel_witness :
    (∃ out,
      processToolCalls executionsReg
        ([{ id := "m1", role := "user", content := "hi", parts := none }] ++
         [msgDoneLast]) = some out ∧
      out.events.filter (fun e => e.toolCallId == "call-3") = [] ∧
      out.msgs =
        [{ id := "m1", role := "user", content := "hi", parts := none }] ++
        [{ msgDoneLast with
           parts := some ([] ++
              MsgPart.toolInvocation
                { toolName := "getWeatherInformation", toolCallId := "call-3",
                  args := RVal.str "Paris", state := InvState.result,
                  result := some (RVal.str "sunny") } ::
              []) }]) ∧
    (∃ out r,
      processToolCalls executionsReg
        ([{ id := "m1", role := "user", content := "hi", parts := none }] ++
         [{ id := "m3", role := "assistant", content := "",
            parts := some [MsgPart.toolInvocation
              { toolName := "getWeatherInformation", toolCallId := "call-5",
                args := RVal.str "Oslo", state := InvState.result,
                result := some (RVal.str APPROVAL.YES) }] }]) = some out ∧
      out.events.filter (fun e => e.toolCallId == "call-5") =
        [{ toolCallId := "call-5", result := r }] ∧
      out.msgs =
        [{ id := "m1", role := "user", content := "hi", parts := none }] ++
        [{ ({ id := "m3", role := "assistant", content := "",
              parts := some [MsgPart.toolInvocation
                { toolName := "getWeatherInformation", toolCallId := "call-5",
                  args := RVal.str "Oslo", state := InvState.result,
                  result := some (RVal.str APPROVAL.YES) }] } : Message) with
           parts := some ([] ++
              MsgPart.toolInvocation
                { toolName := "getWeatherInformation", toolCallId := "call-5",
                  args := RVal.str "Oslo", state := InvState.result,
                  result := some r } ::
              []) }]) := by
  constructor
  · have h := processToolCalls_event_iff_sentinel executionsReg
      [{ id := "m1", role := "user", content := "hi", parts := none }]
      msgDoneLast [] []
      { toolName := "getWeatherInformation", toolCallId := "call-3",
        args := RVal.str "Paris", state := InvState.result,
        result := some (RVal.str "sunny") }
      rfl rfl rfl (by decide)
    obtain ⟨out, h1, h2, _⟩ := h
    obtain ⟨h2a, h2b⟩ := h2 (by decide)
    exact ⟨out, h1, h2a, h2b⟩
  · have h := processToolCalls_event_iff_sentinel executionsReg
      [{ id := "m1", role := "user", content := "hi", parts := none }]
      { id := "m3", role := "assistant", content := "",
        parts := some [MsgPart.toolInvocation
          { toolName := "getWeatherInformation", toolCallId := "call-5",
            args := RVal.str "Oslo", state := InvState.result,
            result := some (RVal.str APPROVAL.YES) }] }
      [] []
      { toolName := "getWeatherInformation", toolCallId := "call-5",
        args := RVal.str "Oslo", state := InvState.result,
        result := some (RVal.str APPROVAL.YES) }
      rfl rfl rfl (by decide)
    obtain ⟨out, h1, _, h3⟩ := h
    obtain ⟨r, h3a, h3b⟩ := h3 (Or.inl rfl)
    exact ⟨out, r, h1, h3a, h3b⟩

/-- C10: whenever the engine replaces a pending YES or NO sentinel, the
updated part keeps its type, tool name, call id, arguments and state
unchanged (only the result field is rewritten), it stays at its position
among the last message's parts, and the part count of the last message is
unchanged. -/
theorem processToolCalls_preserves_invocation_fields (ex : Executions)
    (init : List Message) (last : Message) (pre post : List MsgPart)
    (ti : ToolInvocation)
    (hparts : last.parts = some (pre ++ MsgPart.toolInvocation ti :: post))
    (hstate : ti.state = InvState.result)
    (hsent : ti.result = some (RVal.str APPROVAL.YES) ∨
             ti.result = some (RVal.str APPROVAL.NO))
    (hreg : keyRegistered ex ti.toolName = true) :
    ∃ out r, processToolCalls ex (init ++ [last]) = some out ∧
      out.msgs = init ++
        [{ last with
           parts := some
             (pre.map (fun p => (processPart ex (init ++ [last]) p).part) ++
              MsgPart.toolInvocation
                { toolName := ti.toolName, toolCallId := ti.toolCallId,
                  args := ti.args, state := ti.state, result := some r } ::
              post.map (fun p => (processPart ex (init ++ [last]) p).part)) }] ∧
      (pre.map (fun p => (processPart ex (init ++ [last]) p).part) ++
       MsgPart.toolInvocation
         { toolName := ti.toolName, toolCallId := ti.toolCallId,
           args := ti.args, state := ti.state, result := some r } ::
       post.map (fun p => (processPart ex (init ++ [last]) p).part)).length =
        (pre ++ MsgPart.toolInvocation ti :: post).length := by
  obtain ⟨r, cs, hres⟩ :=
    resolveInvocation_sentinel_some (init ++ [last]) hreg hstate hsent
  have hmid := processPart_resolved hres
  refine ⟨_, r, processToolCalls_concat ex init last _ hparts, ?_, ?_⟩
  · simp only [List.map_append, List.map_cons, hmid, List.map_map]
    rfl
  · simp [List.length_append]

/-- Witness for C10 at the concrete YES-approved weather invocation. -/
theorem processToolCalls_preserves_invocation_fields_witness :
    ∃ out r,
      processToolCalls executionsReg
        ([{ id := "m1", role := "user", content := "hi", parts := none }] ++
         [{ id := "m2", role := "assistant", content := "",
            parts := some [MsgPart.toolInvocation
              { toolName := "getWeatherInformation", toolCallId := "call-4",
                args := RVal.str "Paris", state := InvState.result,
                result := some (RVal.str APPROVAL.YES) }] }]) = some out ∧
      out.msgs =
        [{ id := "m1", role := "user", content := "hi", parts := none }] ++
        [{ ({ id := "m2", role := "assistant", content := "",
              parts := some [MsgPart.toolInvocation
                { toolName := "getWeatherInformation", toolCallId := "call-4",
                  args := RVal.str "Paris", state := InvState.result,
                  result := some (RVal.str APPROVAL.YES) }] } : Message) with
           parts := some ([] ++
              MsgPart.toolInvocation
                { toolName := "getWeatherInformation", toolCallId := "call-4",
                  args := RVal.str "Paris", state := InvState.result,
                  result := some r } ::
              []) }] ∧
      ([] ++
       MsgPart.toolInvocation
         { toolName := "getWeatherInformation", toolCallId := "call-4",
           args := RVal.str "Paris", state := InvState.result,
           result := some r } ::
       ([] : List MsgPart)).length =
        ([] ++ MsgPart.toolInvocation
          { toolName := "getWeatherInformation", toolCallId := "call-4",
            args := RVal.str "Paris", state := InvState.result,
            result := some (RVal.str APPROVAL.YES) } :: ([] : List MsgPart)).length := by
  have h := processToolCalls_preserves_invocation_fields executionsReg
    [{ id := "m1", role := "user", content := "hi", parts := none }]
    { id := "m2", role := "assistant", content := "",
      parts := some [MsgPart.toolInvocation
        { toolName := "getWeatherInformation", toolCallId := "call-4",
          args := RVal.str "Paris", state := InvState.result,
          result := some (RVal.str APPROVAL.YES) }] }
    [] []
    { toolName := "getWeatherInformation", toolCallId := "call-4",
      args := RVal.str "Paris", state := InvState.result,
      result := some (RVal.str APPROVAL.YES) }
    rfl rfl (Or.inl rfl) rfl
  exact h

/-- The configuration language (`PromptConfig.language` of `src/prompts.ts`). -/
inductive Lang where
  | zh
  | en
deriving DecidableEq, Repr

/-- The configuration personality (`PromptConfig.personality`). -/
inductive Personality where
  | professional
  | friendly
  | casual
  | technical
  | creative
deriving DecidableEq, Repr

/-- The configuration domain (`PromptConfig.domain`). -/
inductive Domain where
  | general
  | customerService
  | education
  | development
deriving DecidableEq, Repr

/-- `PromptConfig` of `src/prompts.ts`: language, personality, optional
domain and optional feature list. -/
structure PromptConfig where
  language : Lang
  personality : Personality
  domain : Option Domain
  features : Option (List String)
deriving DecidableEq, Repr

/-- One entry of `BASE_PROMPTS`: identity line, capabilities, style. -/
structure BasePrompt where
  identity : String
  capabilities : List String
  style : List String
deriving DecidableEq, Repr

/-- The `BASE_PROMPTS` table of `src/prompts.ts` (lines 23-178). -/
def basePrompt : Lang → Personality → BasePrompt
  | Lang.zh, Personality.professional =>
    { identity := "你是一个专业的AI助手",
      capabilities :=
      ["提供准确、专业的信息和建议",
       "协助用户解决复杂问题",
       "支持多语言交流",
       "具备广泛的专业知识"],
      style :=
      ["专业、准确、高效",
       "回答结构清晰，逻辑严密",
       "在不确定时会明确说明",
       "提供详细的解决方案"] }
  | Lang.zh, Personality.friendly =>
    { identity := "你是一个友好的AI助手",
      capabilities :=
      ["提供温暖、有用的帮助",
       "耐心解答用户问题",
       "支持轻松愉快的对话",
       "理解用户的情感需求"],
      style :=
      ["友好、亲切、有耐心",
       "用温暖的语调交流",
       "适当使用表情符号",
       "关注用户的感受"] }
  | Lang.zh, Personality.casual =>
    { identity := "你是一个轻松随和的AI助手",
      capabilities :=
      ["提供实用的生活建议",
       "进行轻松的日常对话",
       "分享有趣的知识",
       "帮助解决日常问题"],
      style :=
      ["轻松、自然、幽默",
       "使用日常化的语言",
       "可以适当开玩笑",
       "保持对话的趣味性"] }
  | Lang.zh, Personality.technical =>
    { identity := "你是一个技术专家AI助手",
      capabilities :=
      ["提供专业的技术指导",
       "解决编程和开发问题",
       "分析技术方案和架构",
       "提供最佳实践建议"],
      style :=
      ["技术精准、逻辑清晰",
       "提供详细的技术细节",
       "包含代码示例和解释",
       "关注性能和安全性"] }
  | Lang.zh, Personality.creative =>
    { identity := "你是一个富有创意的AI助手",
      capabilities :=
      ["激发创意思维和想象力",
       "协助创作和故事构建",
       "提供艺术灵感和建议",
       "支持角色扮演和情景模拟"],
      style :=
      ["富有想象力、生动有趣",
       "善于营造氛围和情境",
       "注重细节描述和情感表达",
       "鼓励创新和自由表达"] }
  | Lang.en, Personality.professional =>
    { identity := "You are a professional AI assistant",
      capabilities :=
      ["Provide accurate and professional information",
       "Help users solve complex problems",
       "Support multilingual communication",
       "Possess extensive professional knowledge"],
      style :=
      ["Professional, accurate, and efficient",
       "Clear structure and logical reasoning",
       "Clearly state uncertainties",
       "Provide detailed solutions"] }
  | Lang.en, Personality.friendly =>
    { identity := "You are a friendly AI assistant",
      capabilities :=
      ["Provide warm and helpful assistance",
       "Patiently answer user questions",
       "Support pleasant conversations",
       "Understand users' emotional needs"],
      style :=
      ["Friendly, warm, and patient",
       "Communicate with a warm tone",
       "Use appropriate emojis",
       "Care about users' feelings"] }
  | Lang.en, Personality.casual =>
    { identity := "You are a casual and easygoing AI assistant",
      capabilities :=
      ["Provide practical life advice",
       "Engage in relaxed daily conversations",
       "Share interesting knowledge",
       "Help solve everyday problems"],
      style :=
      ["Relaxed, natural, and humorous",
       "Use everyday language",
       "Appropriate jokes are welcome",
       "Keep conversations interesting"] }
  | Lang.en, Personality.technical =>
    { identity := "You are a technical expert AI assistant",
      capabilities :=
      ["Provide professional technical guidance",
       "Solve programming and development issues",
       "Analyze technical solutions and architecture",
       "Offer best practice recommendations"],
      style :=
      ["Technically precise and logically clear",
       "Provide detailed technical information",
       "Include code examples and explanations",
       "Focus on performance and security"] }
  | Lang.en, Personality.creative =>
    { identity := "You are a creative AI assistant",
      capabilities :=
      ["Inspire creativity and imagination",
       "Assist with creative writing and storytelling",
       "Provide artistic inspiration and suggestions",
       "Support role-playing and scenario simulation"],
      style :=
      ["Imaginative, vivid, and engaging",
       "Skilled at creating atmosphere and context",
       "Focus on detailed descriptions and emotional expression",
       "Encourage innovation and free expression"] }

/-- The `DOMAIN_EXTENSIONS` table of `src/prompts.ts` (lines 183-214);
`none` for the general domain, which has no entry. -/
def domainExtension : Domain → Lang → Option (String × List String)
  | Domain.general, _ => none
  | Domain.customerService, Lang.zh =>
    some ("你专注于客户服务，始终以客户满意为目标，耐心解决客户问题。",
      ["订单查询", "问题反馈", "服务评价"])
  | Domain.customerService, Lang.en =>
    some ("You focus on customer service, always aiming for customer satisfaction and patiently solving customer issues.",
      ["Order inquiry", "Issue feedback", "Service evaluation"])
  | Domain.education, Lang.zh =>
    some ("你是一个教育助手，擅长解释复杂概念，提供学习指导和教育资源。",
      ["知识解释", "学习计划", "练习题生成"])
  | Domain.education, Lang.en =>
    some ("You are an educational assistant, skilled at explaining complex concepts and providing learning guidance and educational resources.",
      ["Knowledge explanation", "Learning plans", "Exercise generation"])
  | Domain.development, Lang.zh =>
    some ("你是一个开发助手，专注于编程、软件开发和技术解决方案。",
      ["代码审查", "架构设计", "调试协助"])
  | Domain.development, Lang.en =>
    some ("You are a development assistant focused on programming, software development, and technical solutions.",
      ["Code review", "Architecture design", "Debugging assistance"])

namespace ROLEPLAY_PROMPTS

/-- The fixed StoneMonkey persona script (`src/prompts.ts` lines 220-241). -/
def StoneMonkey : String :=
  "**【角色设定】**\n*   **用户（玩家）**: 孙悟空，神通广大、桀骜不驯、机灵狡猾、重情重义的齐天大圣。\n*   **AI（编剧）**: 作为旁白 narrator（描述环境、氛围和剧情推进），并扮演除孙悟空外的所有角色，如唐僧、猪八戒、沙僧、神仙、妖怪等。对话和旁白需符合《西游记》原著风格，略带古典白话文和神话色彩。\n\n**【模拟器规则】**\n1.  **剧情导向**: 故事应从孙悟空出世或大闹天宫开始，按照原著主要情节推进（如被压五行山、拜师唐僧、收服八戒沙僧、三打白骨精、大战红孩儿、车迟国斗法、真假美猴王、火焰山等）。\n2.  **互动模式**: 我先以孙悟空的视角做出行动或发言，你据此描述结果和其他角色的反应，推动剧情。\n3.  **自由度**: 在尊重原著主线的前提下，允许我做出一些偏离原著的选择（如不按常理出牌），并请你创造性且合理地演绎这些选择带来的后果，但最终要将故事拉回主线。\n4.  **细节描写**: 注重环境、动作和法术对决的细节描写，营造神话世界的奇幻氛围。\n\n**【开场示例（AI启动语）】**\n**旁白**: 轰隆！仙石迸裂，金光四射。只见一道灵通，目运两道金光，射冲斗府，惊动了高天上圣大慈仁者玉皇大天尊玄穹高上帝。你，自天地孕育的石猴，于今日诞生于花果山水帘洞。此刻，你正站在山巅，感受着自由的清风，群猴在你脚下欢呼雀跃，尊你为\"美猴王\"。孩儿们正嚷着要你去寻那长生不老之术呢。\n\n**【提示词】**\n请你作为《西游记》模拟器的编剧和旁白。我扮演孙悟空。请严格遵循上述【角色设定】和【模拟器规则】。\n你的任务是：\n1.  作为旁白，生动描述场景、剧情发展和战斗场面。\n2.  扮演唐僧、八戒、玉帝、如来、牛魔王等所有其他角色，他们的对话和性格要符合原著。\n3.  引导我体验从诞生到大闹天宫，再到西天取经的主要剧情。\n4.  对我（孙悟空）的行动和语言做出实时、符合剧情逻辑的反馈。\n\n现在，模拟器正式开始。请从上述【开场示例】的情景开始，并对我说：\"**美猴王，你意下如何？**\" 然后等待我的第一句话或第一个行动。"

/-- The fixed HarryPotter persona script (`src/prompts.ts` lines 243-256). -/
def HarryPotter : String :=
  "\n##【角色设定】\n- 你是《哈利·波特》模拟器AI，通晓《哈利·波特》小说的所有情节，你作为旁白 narrator（描述环境、氛围和剧情推进），并扮演除哈利·波特外的所有角色，如赫敏、罗恩、邓布利多、斯内普、马尔福、伏地魔等。对话和旁白需符合《哈利·波特》小说的英伦奇幻风格。\n- 用户扮演哈利·波特，用户的输入代表哈利·波特的行动或发言。\n## 【工作规则】**\n1.  **剧情导向**: 故事应从德思礼家或收到霍格沃茨录取通知书开始，按照七部曲的主要情节推进（如分院、学习魔法、魁地奇、密室、火焰杯、DA军、霍格沃茨大战等）。\n2.  **互动模式**: 用户以哈利·波特的视角做出行动或发言，你据此描述结果和其他角色的反应，推动剧情。\n3.  **自由度**: 在尊重原著主线的前提下，允许用户做出一些选择（如选择不同的课程表现、与不同的人交朋友等），并请你创造性且合理地演绎这些选择带来的后果，但最终需将故事引向关键主线事件。\n4.  **细节描写**: 注重霍格沃茨城堡的神秘氛围、魔法物品的奇妙和咒语对决的紧张感。\n## 输出格式\n- 你作为旁白时: <生动描述场景、剧情发展和魔法对决>\n- 你作为其他角色时: **<角色名：>** <角色对话和肢体语言>\n- 旁白和角色时的输出不超过200字。\n"

end ROLEPLAY_PROMPTS

/-- JavaScript's `String.prototype.includes`: substring containment. -/
def strContains (s sub : String) : Bool :=
  decide (sub.data <:+: s.data)

/-- One "- item\n" line per element, as the `forEach` appends produce. -/
def bulletLines (l : List String) : String :=
  String.join (l.map (fun x => "- " ++ x ++ "\n"))

/-- The domain-specific section of the composed prompt
(`src/prompts.ts` lines 304-309). -/
def domainSection (lang : Lang) (domain : Option Domain) : String :=
  match domain with
  | none => ""
  | some d =>
    match domainExtension d lang with
    | none => ""
    | some ext =>
        "🏢 **专业领域**：\n" ++ ext.fst ++ "\n" ++ "专业工具：" ++
          String.intercalate "、" ext.snd ++ "\n\n"

/-- The custom-features section (`src/prompts.ts` lines 319-325). -/
def featuresSection : Option (List String) → String
  | some fs =>
      if fs.isEmpty then ""
      else "✨ **特殊功能**：\n" ++ bulletLines fs ++ "\n"
  | none => ""

/-- The closing task-scheduling instruction (`src/prompts.ts` lines 328-330). -/
def taskInstruction : Lang → String
  | Lang.zh => "如果用户要求安排任务，请使用 schedule 工具来安排任务。"
  | Lang.en =>
      "If the user asks to schedule a task, use the schedule tool to schedule the task."

/-- The templated composition of `generateSystemPrompt`
(`src/prompts.ts` lines 281-334).  `sp` is the scheduling hint text the
external `unstable_getSchedulePrompt` capability produces from the current
wall clock. -/
def composePrompt (sp : String) (cfg : PromptConfig) : String :=
  (basePrompt cfg.language cfg.personality).identity ++ "。\n\n" ++
  "🎯 **核心能力**：\n" ++
  bulletLines (basePrompt cfg.language cfg.personality).capabilities ++ "\n" ++
  "🛠️ **工具使用**：\n- 可以调用各种工具来完成复杂任务\n- 在使用需要确认的工具前会先征求用户同意\n- 能够安排和管理定时任务\n\n" ++
  sp ++ "\n\n" ++
  domainSection cfg.language cfg.domain ++
  "📝 **交互风格**：\n" ++
  bulletLines (basePrompt cfg.language cfg.personality).style ++ "\n" ++
  featuresSection cfg.features ++
  taskInstruction cfg.language

/-- The role-play feature search of `generateSystemPrompt`
(`src/prompts.ts` lines 266-270): the first feature containing either
role-play marker, when the feature list is present and non-empty. -/
def roleplayFeature (features : Option (List String)) : Option String :=
  match features with
  | some fs =>
      if fs.isEmpty then none
      else fs.find? (fun f =>
        strContains f "西游记角色扮演" || strContains f "哈利波特角色扮演")
  | none => none

/-- `generateSystemPrompt` (`src/prompts.ts` lines 262-335): a recognized
role-play feature overrides the whole composition, dispatching on whether
the found feature mentions 西游记, else 哈利波特; otherwise the prompt is
composed from the templates. -/
def generateSystemPrompt (sp : String) (cfg : PromptConfig) : String :=
  match roleplayFeature cfg.features with
  | some f =>
      if strContains f "西游记" then ROLEPLAY_PROMPTS.StoneMonkey
      else if strContains f "哈利波特" then ROLEPLAY_PROMPTS.HarryPotter
      else composePrompt sp cfg
  | none => composePrompt sp cfg

/-- The `PRESET_CONFIGS` table of `src/prompts.ts` (lines 340-406),
keyed by preset name (`Object.keys` order). -/
def presetConfig : String → Option PromptConfig
  | "general" =>
    some { language := Lang.zh, personality := Personality.friendly,
           domain := none,
           features := some ["支持多轮对话", "提供实用建议", "友好交流"] }
  | "StoneMonkey" =>
    some { language := Lang.zh, personality := Personality.creative,
           domain := none,
           features := some ["西游记角色扮演", "古典神话风格", "互动式剧情", "原著情节再现"] }
  | "HarryPotter" =>
    some { language := Lang.zh, personality := Personality.creative,
           domain := none,
           features := some ["哈利波特角色扮演", "魔法世界体验", "霍格沃茨冒险", "互动式剧情"] }
  | "customerService" =>
    some { language := Lang.zh, personality := Personality.professional,
           domain := some Domain.customerService,
           features := some ["客户问题解决", "服务质量保证", "耐心细致服务"] }
  | "technical" =>
    some { language := Lang.zh, personality := Personality.technical,
           domain := some Domain.development,
           features := some ["代码分析与优化", "技术方案建议", "最佳实践指导", "调试协助"] }
  | "education" =>
    some { language := Lang.zh, personality := Personality.friendly,
           domain := some Domain.education,
           features := some ["知识点解释", "学习方法指导", "练习题设计", "学习进度跟踪"] }
  | "english" =>
    some { language := Lang.en, personality := Personality.professional,
           domain := none,
           features := some ["English conversation practice", "Grammar assistance", "Writing improvement"] }
  | "creative" =>
    some { language := Lang.zh, personality := Personality.casual,
           domain := none,
           features := some ["创意写作", "故事创作", "头脑风暴", "艺术灵感"] }
  | "analyst" =>
    some { language := Lang.zh, personality := Personality.professional,
           domain := none,
           features := some ["数据分析", "逻辑推理", "问题诊断", "决策支持"] }
  | _ => none

/-- `Object.keys(PRESET_CONFIGS)`, in insertion order. -/
def presetNames : List String :=
  ["general", "StoneMonkey", "HarryPotter", "customerService", "technical", "education", "english", "creative", "analyst"]

/-- The per-conversation state the system-command handler touches: the
persisted message history and the prompt manager's current configuration
(`Chat.messages` and `Chat.promptManager` of `src/server.ts`). -/
structure ChatState where
  messages : List Message
  promptConfig : PromptConfig
deriving Repr

/-- `PromptManager.getSystemPrompt` (`src/prompts.ts` lines 428-430):
generate from the current configuration; `sp` is the external scheduling
hint text. -/
def getSystemPrompt (sp : String) (st : ChatState) : String :=
  generateSystemPrompt sp st.promptConfig

/-- `getPresetDescription` (`src/server.ts` lines 185-253): the fixed
description record, defaulting to 自定义助手模式 for names without an
entry (including `general` and `customerService`). -/
def getPresetDescription (presetName : String) : String :=
  if presetName = "StoneMonkey" then
    "\n**【角色设定】**\n*   **用户（玩家）**: 孙悟空，神通广大、桀骜不驯、机灵狡猾、重情重义的齐天大圣。\n*   **AI（编剧）**: 作为旁白 narrator（描述环境、氛围和剧情推进），并扮演除孙悟空外的所有角色，如唐僧、猪八戒、沙僧、神仙、妖怪等。对话和旁白需符合《西游记》原著风格，略带古典白话文和神话色彩。\n\n**【模拟器规则】**\n1.  **剧情导向**: 故事应从孙悟空出世或大闹天宫开始，按照原著主要情节推进（如被压五行山、拜师唐僧、收服八戒沙僧、三打白骨精、大战红孩儿、车迟国斗法、真假美猴王、火焰山等）。\n2.  **互动模式**: 我先以孙悟空的视角做出行动或发言，你据此描述结果和其他角色的反应，推动剧情。\n3.  **自由度**: 在尊重原著主线的前提下，允许我做出一些偏离原著的选择（如不按常理出牌），并请你创造性且合理地演绎这些选择带来的后果，但最终要将故事拉回主线。\n4.  **细节描写**: 注重环境、动作和法术对决的细节描写，营造神话世界的奇幻氛围。\n\n**【开场示例（AI启动语）】**\n（以下可作为AI的第一段话，开启冒险）\n**旁白**: 轰隆！仙石迸裂，金光四射。只见一道灵通，目运两道金光，射冲斗府，惊动了高天上圣大慈仁者玉皇大天尊玄穹高上帝。你，自天地孕育的石猴，于今日诞生于花果山水帘洞。此刻，你正站在山巅，感受着自由的清风，群猴在你脚下欢呼雀跃，尊你为“美猴王”。孩儿们正嚷着要你去寻那长生不老之术呢。\n**（等待我的行动/发言）**\n\n**【提示词】**\n请你作为《西游记》模拟器的编剧和旁白。我扮演孙悟空。请严格遵循上述【角色设定】和【模拟器规则】。\n你的任务是：\n1.  作为旁白，生动描述场景、剧情发展和战斗场面。\n2.  扮演唐僧、八戒、玉帝、如来、牛魔王等所有其他角色，他们的对话和性格要符合原著。\n3.  引导我体验从诞生到大闹天宫，再到西天取经的主要剧情。\n4.  对我（孙悟空）的行动和语言做出实时、符合剧情逻辑的反馈。\n\n现在，模拟器正式开始。请从上述【开场示例】的情景开始，并对我说：“**美猴王，你意下如何？**” 然后等待我的第一句话或第一个行动。\n\n  \n      "
  else if presetName = "HarryPotter" then
    "\n**【角色设定】**\n*   **用户（玩家）**: 哈利·波特，额头上有着闪电形伤疤的男孩，性格勇敢、善良，有时有些冲动。\n*   **AI（编剧）**: 作为旁白 narrator（描述环境、氛围和剧情推进），并扮演除哈利·波特外的所有角色，如赫敏、罗恩、邓布利多、斯内普、马尔福、伏地魔等。对话和旁白需符合《哈利·波特》小说的英伦奇幻风格。\n\n**【模拟器规则】**\n1.  **剧情导向**: 故事应从德思礼家或收到霍格沃茨录取通知书开始，按照七部曲的主要情节推进（如分院、学习魔法、魁地奇、密室、火焰杯、DA军、霍格沃茨大战等）。\n2.  **互动模式**: 我先以哈利·波特的视角做出行动或发言，你据此描述结果和其他角色的反应，推动剧情。\n3.  **自由度**: 在尊重原著主线的前提下，允许我做出一些选择（如选择不同的课程表现、与不同的人交朋友等），并请你创造性且合理地演绎这些选择带来的后果，但最终需将故事引向关键主线事件。\n4.  **细节描写**: 注重霍格沃茨城堡的神秘氛围、魔法物品的奇妙和咒语对决的紧张感。\n\n**【开场示例（AI启动语）】**\n（以下可作为AI的第一段话，开启冒险）\n**旁白**: 萨里郡小惠金区女贞路4号，一个极其平常的星期二。你，哈利·波特，正蜷缩在楼梯下的碗柜里。达力生日去动物园剩下的旧毛衣，是你的礼物。碗柜门外，佩妮姨妈尖厉的声音传来，催促你快点把早餐培根端上桌。就在这时，一件奇怪的事发生了——邮箱里突然“哗啦啦”地响，好像被什么东西塞满了。紧接着，一个沉重的、由某种厚重羊皮纸制成的信封，从门缝底下滑了进来，静静地躺在擦得锃亮的地板上。信封上用翠绿色的墨水清清楚楚地写着：**碗柜 under the stairs, 女贞路4号, 小惠金区, 萨里郡, 哈利·波特先生 收**。\n**（等待我的行动/发言）**\n\n**【提示词】**\n请你作为《哈利·波特》模拟器的编剧和旁白。我扮演哈利·波特。请严格遵循上述【角色设定】和【模拟器规则】。\n你的任务是：\n1.  作为旁白，生动描述场景、剧情发展和魔法对决。\n2.  扮演赫敏、罗恩、邓布利多、海格、马尔福、伏地魔等所有其他角色，他们的对话和性格要符合原著。\n3.  引导我体验从收到信到霍格沃茨毕业的主要剧情。\n4.  对我（哈利）的行动和语言做出实时、符合剧情逻辑的反馈。\n\n现在，模拟器正式开始。请从上述【开场示例】的情景开始，并对我说：“**哈利，你看到这封信了。你打算怎么做？**” 然后等待我的第一句话或第一个行动。\n\n\n      "
  else if presetName = "technical" then "技术专家助手，擅长编程、开发和技术支持"
  else if presetName = "education" then "教育助手，善于解释概念和提供学习指导"
  else if presetName = "english" then "英文助手，提供英语交流和学习支持"
  else if presetName = "creative" then "创意助手，擅长创意写作和艺术灵感"
  else if presetName = "analyst" then "分析助手，专注数据分析和逻辑推理"
  else "自定义助手模式"

/-- `getCurrentModeInfo` (`src/server.ts` lines 258-266): the first line
of the current system prompt (falling back to 智能助手 when that line is
empty, as `lines[0] || ...` does), plus the fixed usage footer. -/
def getCurrentModeInfo (sp : String) (st : ChatState) : String :=
  let lines := (getSystemPrompt sp st).splitOn "\n"
  let firstLine := lines.headD ""
  let identity := if firstLine = "" then "智能助手" else firstLine
  "**当前身份：** " ++ identity ++
    "\n\n您可以随时使用 `/sys:help` 查看可用的模式，或使用 `/sys:其他模式名` 切换到其他模式。"

/-- JavaScript's `String.prototype.startsWith`: prefix test on the
character sequence. -/
def strStartsWith (s pre : String) : Bool :=
  decide (pre.data <+: s.data)

/-- JavaScript's `String.prototype.substring(n)` for an all-ASCII prefix:
drop the first `n` characters. -/
def strDrop (s : String) (n : Nat) : String :=
  { data := s.data.drop n }

/-- JavaScript's `String.prototype.trim`: strip whitespace from both ends. -/
def strTrim (s : String) : String :=
  { data := ((s.data.dropWhile Char.isWhitespace).reverse.dropWhile
      Char.isWhitespace).reverse }

/-- JavaScript's `Array.prototype.join`: the elements separated by `sep`. -/
def joinSep (sep : String) : List String → String
  | [] => ""
  | [x] => x
  | x :: y :: rest => x ++ sep ++ joinSep sep (y :: rest)

/-- The help text of `handleSystemCommand` (`src/server.ts` lines 130-143),
listing every preset with its description. -/
def helpText : String :=
  "🤖 **系统提示词切换帮助**\n\n**可用的预设提示词：**\n" ++
  joinSep "\n"
    (presetNames.map (fun preset => "- `" ++ preset ++ "`: " ++ getPresetDescription preset)) ++
  "\n\n**使用方法：**\n`/sys:预设名称` - 切换到指定的系统提示词\n\n**示例：**\n- `/sys:technical` - 切换到技术助手模式\n- `/sys:customerService` - 切换到客服助手模式\n- `/sys:education` - 切换到教育助手模式\n\n切换提示词时会自动清空历史对话记录。"

/-- The unknown-preset text of `handleSystemCommand` (`src/server.ts`
lines 148-152), listing the valid preset names. -/
def unknownPresetText (promptName : String) : String :=
  "❌ **未找到提示词预设：`" ++ promptName ++ "`**\n\n可用的预设包括：" ++
  joinSep ", " presetNames ++
  "\n\n使用 `/sys:help` 查看详细帮助。"

/-- The confirmation text of `handleSystemCommand` (`src/server.ts` lines
165-172), built after history was cleared and the preset switched. -/
def switchedText (sp : String) (promptName : String) (st : ChatState) : String :=
  "✅ **系统提示词已切换**\n\n**当前模式：** `" ++ promptName ++ "`\n**描述：** " ++
  getPresetDescription promptName ++
  "\n\n历史对话记录已清空，我现在以新的角色为您服务！\n\n" ++
  getCurrentModeInfo sp st

/-- `handleSystemCommand` (`src/server.ts` lines 116-180).  `none` models
the `null` returned for a non-command; otherwise the returned text and the
state after the call (history and prompt configuration).  On a successful
switch the history is cleared (`saveMessages([])`) and the configuration
reset before the confirmation text is built; the persistence capability is
assumed not to fail, so the catch branch (lines 174-179) is not taken. -/
def handleSystemCommand (sp : String) (st : ChatState) (command : String) :
    Option (String × ChatState) :=
  if strStartsWith command "/sys:" = false then
    none
  else
    let promptName := strTrim (strDrop command 5)
    if promptName = "" ∨ promptName = "help" then
      some (helpText, st)
    else
      match presetConfig promptName with
      | none => some (unknownPresetText promptName, st)
      | some cfg =>
          let st2 : ChatState := { messages := [], promptConfig := cfg }
          some (switchedText sp promptName st2, st2)

/-- The outcome of one `onChatMessage` turn as far as command handling is
concerned: either a command response was streamed (and the model is never
invoked), or the turn proceeds to resolution and generation. -/
inductive TurnResult where
  | command (response : String) (next : ChatState)
  | generate (st : ChatState)
deriving Repr

/-- The command-interception prologue of `onChatMessage` (`src/server.ts`
lines 281-315): the last message's content (empty when there is none), the
user-role and `/sys:` prefix checks, and the dispatch on the handler's
result. -/
def routeChatMessage (sp : String) (st : ChatState) : TurnResult :=
  let lastMessage := st.messages.getLast?
  let userInput := (lastMessage.map Message.content).getD ""
  if ((lastMessage.map Message.role).getD "" == "user") &&
      strStartsWith userInput "/sys:" then
    match handleSystemCommand sp st userInput with
    | some p => TurnResult.command p.fst p.snd
    | none => TurnResult.generate st
  else
    TurnResult.generate st

/-- Appending preserves the character list. -/
theorem string_data_append (a b : String) : (a ++ b).data = a.data ++ b.data := by
  cases a
  cases b
  rfl

/-- Containment in the left operand survives an append on the right. -/
theorem strContains_mono_left {a x : String} (b : String)
    (h : strContains a x = true) : strContains (a ++ b) x = true := by
  unfold strContains at h ⊢
  rw [decide_eq_true_eq] at h ⊢
  rw [string_data_append]
  exact h.trans (List.prefix_append a.data b.data).isInfix

/-- Containment in the right operand survives an append on the left. -/
theorem strContains_mono_right {b x : String} (a : String)
    (h : strContains b x = true) : strContains (a ++ b) x = true := by
  unfold strContains at h ⊢
  rw [decide_eq_true_eq] at h ⊢
  rw [string_data_append]
  exact h.trans (List.suffix_append a.data b.data).isInfix

/-- Every string contains itself. -/
theorem strContains_self (a : String) : strContains a a = true := by
  unfold strContains
  rw [decide_eq_true_eq]

/-- Containment is transitive. -/
theorem strContains_trans {s t u : String} (h1 : strContains s t = true)
    (h2 : strContains t u = true) : strContains s u = true := by
  unfold strContains at h1 h2 ⊢
  rw [decide_eq_true_eq] at h1 h2 ⊢
  exact h2.trans h1

/-- The composed (non-role-play) prompt always contains the identity line
of the active base prompt. -/
theorem composePrompt_contains_identity (sp : String) (cfg : PromptConfig) :
    strContains (composePrompt sp cfg)
      (basePrompt cfg.language cfg.personality).identity = true := by
  unfold composePrompt
  repeat
    first
      | exact strContains_self _
      | apply strContains_mono_left

/-- A name with no entry in `PRESET_CONFIGS` resolves to no configuration. -/
theorem presetConfig_eq_none_of_not_mem {n : String} (h : n ∉ presetNames) :
    presetConfig n = none := by
  unfold presetConfig
  split
  all_goals first
    | rfl
    | (exfalso; apply h; simp_all [presetNames])

/-- An element of the joined list is contained in the join. -/
theorem joinSep_contains (sep : String) (l : List String) (x : String)
    (hx : x ∈ l) : strContains (joinSep sep l) x = true := by
  induction l with
  | nil => cases hx
  | cons a rest ih =>
    cases rest with
    | nil =>
      rw [List.mem_singleton] at hx
      rw [hx]
      exact strContains_self a
    | cons b rest2 =>
      rcases List.mem_cons.mp hx with h | h
      · rw [h]
        unfold joinSep
        apply strContains_mono_left
        apply strContains_mono_left
        exact strContains_self a
      · unfold joinSep
        apply strContains_mono_right
        exact ih h

/-- The help text lists every preset name. -/
theorem helpText_contains : ∀ p ∈ presetNames, strContains helpText p = true := by
  intro p hp
  unfold helpText
  apply strContains_mono_left
  apply strContains_mono_right
  refine strContains_trans
    (joinSep_contains "\n" _ _
      (List.mem_map_of_mem (fun q => "- `" ++ q ++ "`: " ++ getPresetDescription q) hp)) ?_
  apply strContains_mono_left
  apply strContains_mono_left
  apply strContains_mono_right
  exact strContains_self p

/-- The unknown-preset text lists every preset name, whatever the unknown
argument was. -/
theorem unknownPresetText_contains (arg : String) :
    ∀ p ∈ presetNames, strContains (unknownPresetText arg) p = true := by
  intro p hp
  unfold unknownPresetText
  apply strContains_mono_left
  apply strContains_mono_right
  exact joinSep_contains ", " presetNames p hp

/-- What "getSystemPrompt reflects the preset" means, per preset: the two
role-play presets substitute their fixed persona script wholesale; every
other preset's prompt carries the identity line of its base template. -/
def reflectsPreset (name : String) (prompt : String) : Prop :=
  if name = "StoneMonkey" then prompt = ROLEPLAY_PROMPTS.StoneMonkey
  else if name = "HarryPotter" then prompt = ROLEPLAY_PROMPTS.HarryPotter
  else
    match presetConfig name with
    | some cfg =>
        strContains prompt (basePrompt cfg.language cfg.personality).identity = true
    | none => True

/-- C6: for a user message beginning with `/sys:`, an argument that is not
a known preset name (including the empty and `help` arguments) yields a
command response listing every valid preset name, leaves the state (history
and prompt configuration) untouched, and the model is never invoked; a
known preset name clears the history, resets the configuration to that
preset, and the system prompt subsequently reflects the preset. -/
theorem handleSystemCommand_spec (sp : String) (st : ChatState) (lm : Message)
    (arg : String)
    (hlast : st.messages.getLast? = some lm)
    (hrole : lm.role = "user")
    (hcmd : strStartsWith lm.content "/sys:" = true)
    (harg : strTrim (strDrop lm.content 5) = arg) :
    (arg ∉ presetNames →
      ∃ txt, handleSystemCommand sp st lm.content = some (txt, st) ∧
        routeChatMessage sp st = TurnResult.command txt st ∧
        ∀ p ∈ presetNames, strContains txt p = true) ∧
    (arg ∈ presetNames →
      ∃ txt cfg, presetConfig arg = some cfg ∧
        handleSystemCommand sp st lm.content =
          some (txt, { messages := [], promptConfig := cfg }) ∧
        routeChatMessage sp st =
          TurnResult.command txt { messages := [], promptConfig := cfg } ∧
        getSystemPrompt sp { messages := [], promptConfig := cfg } =
          generateSystemPrompt sp cfg ∧
        reflectsPreset arg
          (getSystemPrompt sp { messages := [], promptConfig := cfg })) := by
  have hroute : routeChatMessage sp st =
      (match handleSystemCommand sp st lm.content with
       | some p => TurnResult.command p.fst p.snd
       | none => TurnResult.generate st) := by
    unfold routeChatMessage
    rw [hlast]
    simp [hrole, hcmd]
  have hhsc : handleSystemCommand sp st lm.content =
      (if arg = "" ∨ arg = "help" then some (helpText, st)
       else
        match presetConfig arg with
        | none => some (unknownPresetText arg, st)
        | some cfg =>
            some (switchedText sp arg { messages := [], promptConfig := cfg },
                  { messages := [], promptConfig := cfg })) := by
    unfold handleSystemCommand
    rw [hcmd, harg]
    simp
  constructor
  · intro hnot
    have hnone : presetConfig arg = none := presetConfig_eq_none_of_not_mem hnot
    by_cases hhelp : arg = "" ∨ arg = "help"
    · rw [if_pos hhelp] at hhsc
      refine ⟨helpText, hhsc, ?_, helpText_contains⟩
      rw [hroute, hhsc]
    · rw [if_neg hhelp, hnone] at hhsc
      refine ⟨unknownPresetText arg, hhsc, ?_, unknownPresetText_contains arg⟩
      rw [hroute, hhsc]
  · intro hmem
    have hhelp : ¬ (arg = "" ∨ arg = "help") := by
      simp [presetNames] at hmem
      rcases hmem with rfl | rfl | rfl | rfl | rfl | rfl | rfl | rfl | rfl <;> decide
    rw [if_neg hhelp] at hhsc
    have hrefl : ∀ cfg, presetConfig arg = some cfg →
        reflectsPreset arg (generateSystemPrompt sp cfg) := by
      intro cfg hcfg
      simp [presetNames] at hmem
      rcases hmem with rfl | rfl | rfl | rfl | rfl | rfl | rfl | rfl | rfl <;>
        (rw [show cfg = _ from (Option.some_inj.mp hcfg).symm]) <;> rfl
    obtain ⟨cfg, hcfg⟩ : ∃ cfg, presetConfig arg = some cfg := by
      simp [presetNames] at hmem
      rcases hmem with rfl | rfl | rfl | rfl | rfl | rfl | rfl | rfl | rfl <;>
        exact ⟨_, rfl⟩
    rw [hcfg] at hhsc
    exact ⟨switchedText sp arg { messages := [], promptConfig := cfg }, cfg,
      hcfg, hhsc, by rw [hroute, hhsc], rfl, hrefl cfg hcfg⟩

/-- A conversation state whose last message is the unknown command
`/sys:foo`, under the default (general) configuration. -/
def stSysFoo : ChatState :=
  { messages := [{ id := "m1", role := "user", content := "/sys:foo",
                   parts := none }],
    promptConfig :=
      { language := Lang.zh, personality := Personality.friendly,
        domain := none,
        features := some ["支持多轮对话", "提供实用建议", "友好交流"] } }

/-- Witness for C6: the unknown preset `/sys:foo` produces a command
response listing every preset and leaves the state untouched. -/
theorem handleSystemCommand_spec_witness :
    ∃ txt, handleSystemCommand "SCHED" stSysFoo "/sys:foo" = some (txt, stSysFoo) ∧
      routeChatMessage "SCHED" stSysFoo = TurnResult.command txt stSysFoo ∧
      ∀ p ∈ presetNames, strContains txt p = true := by
  have h := handleSystemCommand_spec "SCHED" stSysFoo
    { id := "m1", role := "user", content := "/sys:foo", parts := none }
    "foo" rfl rfl (by decide) (by decide)
  exact h.1 (by decide)

/-- C9 counterexample: the single feature 哈利波特角色扮演之西游记篇
mentions the 哈利波特角色扮演 marker (and not the 西游记角色扮演 one), yet
the generated prompt is the StoneMonkey script, not the corresponding
HarryPotter script, because the dispatch tests 西游记 first on the found
feature. -/
theorem generateSystemPrompt_roleplay_counterexample :
    strContains "哈利波特角色扮演之西游记篇" "哈利波特角色扮演" = true ∧
    strContains "哈利波特角色扮演之西游记篇" "西游记角色扮演" = false ∧
    generateSystemPrompt ""
      { language := Lang.zh, personality := Personality.friendly,
        domain := none,
        features := some ["哈利波特角色扮演之西游记篇"] } =
      ROLEPLAY_PROMPTS.StoneMonkey ∧
    ROLEPLAY_PROMPTS.StoneMonkey ≠ ROLEPLAY_PROMPTS.HarryPotter :=
  ⟨by decide, by decide, rfl, by decide⟩

/-- C9 as amended: whenever the feature list contains a feature mentioning
either role-play marker, the generated prompt is one of the two fixed
persona scripts, selected by the FIRST marker-bearing feature `g` of the
list: the StoneMonkey script when `g` mentions 西游记 anywhere, else the
HarryPotter script — and the prompt is entirely independent of the
scheduling hint, language, personality, domain and the other features. -/
theorem generateSystemPrompt_roleplay_override (sp1 sp2 : String)
    (c1 c2 : PromptConfig) (fs : List String) (g : String)
    (hf1 : c1.features = some fs) (hf2 : c2.features = some fs)
    (hg : fs.find? (fun f => strContains f "西游记角色扮演" ||
            strContains f "哈利波特角色扮演") = some g) :
    generateSystemPrompt sp1 c1 = generateSystemPrompt sp2 c2 ∧
    generateSystemPrompt sp1 c1 =
      (if strContains g "西游记" then ROLEPLAY_PROMPTS.StoneMonkey
       else ROLEPLAY_PROMPTS.HarryPotter) ∧
    (generateSystemPrompt sp1 c1 = ROLEPLAY_PROMPTS.StoneMonkey ∨
     generateSystemPrompt sp1 c1 = ROLEPLAY_PROMPTS.HarryPotter) := by
  have hmem : g ∈ fs := List.mem_of_find?_eq_some hg
  have hne : fs.isEmpty = false := by
    cases fs with
    | nil => cases hmem
    | cons a rest => rfl
  have hgor : strContains g "西游记角色扮演" = true ∨
      strContains g "哈利波特角色扮演" = true := by
    have := List.find?_some hg
    simpa using this
  have hrp1 : roleplayFeature c1.features = some g := by
    rw [hf1]
    simp [roleplayFeature, hne, hg]
  have hrp2 : roleplayFeature c2.features = some g := by
    rw [hf2]
    simp [roleplayFeature, hne, hg]
  have hdisp : ∀ sp c, roleplayFeature c.features = some g →
      generateSystemPrompt sp c =
        (if strContains g "西游记" then ROLEPLAY_PROMPTS.StoneMonkey
         else if strContains g "哈利波特" then ROLEPLAY_PROMPTS.HarryPotter
         else composePrompt sp c) := by
    intro sp c hrp
    unfold generateSystemPrompt
    rw [hrp]
  by_cases hsj : strContains g "西游记" = true
  · have e1 : generateSystemPrompt sp1 c1 = ROLEPLAY_PROMPTS.StoneMonkey := by
      rw [hdisp sp1 c1 hrp1, if_pos hsj]
    have e2 : generateSystemPrompt sp2 c2 = ROLEPLAY_PROMPTS.StoneMonkey := by
      rw [hdisp sp2 c2 hrp2, if_pos hsj]
    refine ⟨e1.trans e2.symm, ?_, Or.inl e1⟩
    rw [e1, if_pos hsj]
  · have hhp : strContains g "哈利波特" = true := by
      rcases hgor with h | h
      · exact absurd (strContains_trans h (by decide)) hsj
      · exact strContains_trans h (by decide)
    have e1 : generateSystemPrompt sp1 c1 = ROLEPLAY_PROMPTS.HarryPotter := by
      rw [hdisp sp1 c1 hrp1, if_neg (by simp [hsj]), if_pos hhp]
    have e2 : generateSystemPrompt sp2 c2 = ROLEPLAY_PROMPTS.HarryPotter := by
      rw [hdisp sp2 c2 hrp2, if_neg (by simp [hsj]), if_pos hhp]
    refine ⟨e1.trans e2.symm, ?_, Or.inr e1⟩
    rw [e1, if_neg (by simp [hsj])]

/-- Witness for the amended C9, exercising both outcomes of the selection
rule: the 西游记角色扮演 feature yields the StoneMonkey script under two
entirely different configurations and scheduling hints, and a list whose
first marker-bearing feature is 哈利波特角色扮演 yields the HarryPotter
script. -/
theorem generateSystemPrompt_roleplay_override_witness :
    (generateSystemPrompt "SCHED-A"
      { language := Lang.zh, personality := Personality.creative,
        domain := none, features := some ["西游记角色扮演"] } =
     generateSystemPrompt "SCHED-B"
      { language := Lang.en, personality := Personality.professional,
        domain := some Domain.development,
        features := some ["西游记角色扮演"] } ∧
     generateSystemPrompt "SCHED-A"
      { language := Lang.zh, personality := Personality.creative,
        domain := none, features := some ["西游记角色扮演"] } =
        ROLEPLAY_PROMPTS.StoneMonkey) ∧
    generateSystemPrompt "SCHED-C"
      { language := Lang.zh, personality := Personality.friendly,
        domain := none,
        features := some ["魔法世界体验", "哈利波特角色扮演"] } =
      ROLEPLAY_PROMPTS.HarryPotter := by
  have h1 := generateSystemPrompt_roleplay_override "SCHED-A" "SCHED-B"
    { language := Lang.zh, personality := Personality.creative,
      domain := none, features := some ["西游记角色扮演"] }
    { language := Lang.en, personality := Personality.professional,
      domain := some Domain.development,
      features := some ["西游记角色扮演"] }
    ["西游记角色扮演"] "西游记角色扮演" rfl rfl (by decide)
  have h2 := generateSystemPrompt_roleplay_override "SCHED-C" "SCHED-C"
    { language := Lang.zh, personality := Personality.friendly,
      domain := none,
      features := some ["魔法世界体验", "哈利波特角色扮演"] }
    { language := Lang.zh, personality := Personality.friendly,
      domain := none,
      features := some ["魔法世界体验", "哈利波特角色扮演"] }
    ["魔法世界体验", "哈利波特角色扮演"] "哈利波特角色扮演" rfl rfl (by decide)
  exact ⟨⟨h1.1, h1.2.1⟩, h2.2.1⟩

/-- A schedule spec as validated by the `unstable_scheduleSchema` parameter
schema (library code): one of the three trigger kinds, the explicit
no-schedule marker, or — representable in JavaScript though excluded by
the schema — a spec whose type tag is none of the recognized four. -/
inductive When where
  | scheduled (date : String)
  | delayed (delayInSeconds : Int)
  | cron (cron : String)
  | noSchedule
  | unknown
deriving DecidableEq, Repr

/-- The argument handed to the timer capability: the date, the delay in
seconds, or the cron expression. -/
inductive SchedInput where
  | date (d : String)
  | delay (n : Int)
  | cronExpr (c : String)
deriving DecidableEq, Repr

/-- The string interpolation `${input}` of the confirmation message. -/
def schedInputStr : SchedInput → String
  | SchedInput.date d => d
  | SchedInput.delay n => toString n
  | SchedInput.cronExpr c => c

/-- A registration performed against the external timer capability:
`agent.schedule(input, callbackName, description)`. -/
structure TimerReg where
  input : SchedInput
  callbackName : String
  description : String
deriving DecidableEq, Repr

/-- The timer capability: registration either yields a schedule id or
fails with an (already stringified) error. -/
def Timer := SchedInput → String → String → Except String String

/-- The registration step of `scheduleTask.execute` (`src/tools.ts` lines
93-102): the `try`/`catch` around `agent.schedule`, returning the
confirmation string on success and the caught error as a string result on
failure; the attempted registration is recorded either way. -/
def registerSchedule (timer : Timer) (description : String)
    (input : SchedInput) (tname : String) : String × List TimerReg :=
  match timer input "executeTask" description with
  | Except.ok _ =>
      ("Task scheduled for type \"" ++ tname ++ "\" : " ++ schedInputStr input,
       [{ input := input, callbackName := "executeTask",
          description := description }])
  | Except.error e =>
      ("Error scheduling task: " ++ e,
       [{ input := input, callbackName := "executeTask",
          description := description }])

/-- `scheduleTask.execute` (`src/tools.ts` lines 65-103).  The outer
`Except.error` models an exception escaping the execute function: it is
raised only by the `throwError` branch of the input selection (line 91),
which sits outside the `try` block and is reached only by a spec of
unrecognized type. -/
def scheduleTaskExecute (timer : Timer) (when : When) (description : String) :
    Except String (String × List TimerReg) :=
  match when with
  | When.noSchedule => Except.ok ("Not a valid schedule input", [])
  | When.scheduled d =>
      Except.ok (registerSchedule timer description (SchedInput.date d) "scheduled")
  | When.delayed n =>
      Except.ok (registerSchedule timer description (SchedInput.delay n) "delayed")
  | When.cron c =>
      Except.ok (registerSchedule timer description (SchedInput.cronExpr c) "cron")
  | When.unknown => Except.error "not a valid schedule input"

/-- The input selection of `scheduleTask.execute` (lines 84-91) for the
three schedulable kinds, paired with the spec's type tag. -/
def validInput : When → Option (SchedInput × String)
  | When.scheduled d => some (SchedInput.date d, "scheduled")
  | When.delayed n => some (SchedInput.delay n, "delayed")
  | When.cron c => some (SchedInput.cronExpr c, "cron")
  | _ => none

/-- A timer capability that always returns the fixed id `sched-42`. -/
def timer42 : Timer := fun _ _ _ => Except.ok "sched-42"

/-- C7 counterexample: the execute function does not return the schedule
id produced by the timer capability — it returns its own confirmation
string, which differs from the id. -/
theorem scheduleTask_returns_string_not_id :
    scheduleTaskExecute timer42 (When.delayed 30) "ping" =
      Except.ok ("Task scheduled for type \"delayed\" : 30",
        [{ input := SchedInput.delay 30, callbackName := "executeTask",
           description := "ping" }]) ∧
    "Task scheduled for type \"delayed\" : 30" ≠ "sched-42" :=
  ⟨rfl, by decide⟩

/-- C7 as amended: a `no-schedule` spec yields the descriptive failure
string without raising; a valid spec (scheduled, delayed or cron) registers
the task with the timer capability under the callback name `executeTask`
and returns a confirmation string naming the schedule type and input — the
schedule id produced by the capability is discarded, not returned. -/
theorem scheduleTask_spec (timer : Timer) (description : String) :
    scheduleTaskExecute timer When.noSchedule description =
      Except.ok ("Not a valid schedule input", []) ∧
    ∀ w inp tname, validInput w = some (inp, tname) →
      ∃ msg, scheduleTaskExecute timer w description =
          Except.ok (msg,
            [{ input := inp, callbackName := "executeTask",
               description := description }]) ∧
        ∀ idv, timer inp "executeTask" description = Except.ok idv →
          msg = "Task scheduled for type \"" ++ tname ++ "\" : " ++
            schedInputStr inp := by
  have hreg : ∀ inp tname,
      ∃ msg, registerSchedule timer description inp tname =
          (msg, [{ input := inp, callbackName := "executeTask",
                   description := description }]) ∧
        ∀ idv, timer inp "executeTask" description = Except.ok idv →
          msg = "Task scheduled for type \"" ++ tname ++ "\" : " ++
            schedInputStr inp := by
    intro inp tname
    cases ht : timer inp "executeTask" description with
    | ok idv =>
      refine ⟨"Task scheduled for type \"" ++ tname ++ "\" : " ++
        schedInputStr inp, ?_, ?_⟩
      · simp [registerSchedule, ht]
      · intro idv2 _
        rfl
    | error e =>
      refine ⟨"Error scheduling task: " ++ e, ?_, ?_⟩
      · simp [registerSchedule, ht]
      · intro idv2 h2
        cases h2
  refine ⟨rfl, ?_⟩
  intro w inp tname hv
  cases w with
  | scheduled d =>
    simp only [validInput, Option.some.injEq, Prod.mk.injEq] at hv
    obtain ⟨h1, h2⟩ := hv
    subst h1
    subst h2
    obtain ⟨msg, hr1, hr2⟩ := hreg (SchedInput.date d) "scheduled"
    exact ⟨msg, by simp [scheduleTaskExecute, hr1], hr2⟩
  | delayed n =>
    simp only [validInput, Option.some.injEq, Prod.mk.injEq] at hv
    obtain ⟨h1, h2⟩ := hv
    subst h1
    subst h2
    obtain ⟨msg, hr1, hr2⟩ := hreg (SchedInput.delay n) "delayed"
    exact ⟨msg, by simp [scheduleTaskExecute, hr1], hr2⟩
  | cron c =>
    simp only [validInput, Option.some.injEq, Prod.mk.injEq] at hv
    obtain ⟨h1, h2⟩ := hv
    subst h1
    subst h2
    obtain ⟨msg, hr1, hr2⟩ := hreg (SchedInput.cronExpr c) "cron"
    exact ⟨msg, by simp [scheduleTaskExecute, hr1], hr2⟩
  | noSchedule => cases hv
  | unknown => cases hv

/-- Witness for the amended C7: the 30-second delayed task registers under
`executeTask` and returns the confirmation string. -/
theorem scheduleTask_spec_witness :
    ∃ msg, scheduleTaskExecute timer42 (When.delayed 30) "ping" =
        Except.ok (msg,
          [{ input := SchedInput.delay 30, callbackName := "executeTask",
             description := "ping" }]) ∧
      ∀ idv, timer42 (SchedInput.delay 30) "executeTask" "ping" = Except.ok idv →
        msg = "Task scheduled for type \"delayed\" : 30" := by
  have h := (scheduleTask_spec timer42 "ping").2 (When.delayed 30)
    (SchedInput.delay 30) "delayed" rfl
  obtain ⟨msg, h1, h2⟩ := h
  exact ⟨msg, h1, fun idv hid => h2 idv hid⟩

/-- C8 counterexample: a spec whose type is unrecognized — excluded by the
parameter schema but explicitly branched on in the source — makes the
execute function throw (`throwError` at line 91 sits outside the `try`
block), so the exception escapes to the caller. -/
theorem scheduleTask_throws_on_unknown :
    scheduleTaskExecute timer42 When.unknown "d" =
      Except.error "not a valid schedule input" := rfl

/-- C8 as amended: for every spec the schedule schema can produce (the
four recognized types) and every behaviour of the timer capability —
including registration failure, which is caught and rendered as an error
string — the execute function returns a textual result and never lets an
exception escape; only the schema-unreachable unrecognized type would
throw. -/
theorem scheduleTask_total (timer : Timer) (description : String) (w : When)
    (h : w ≠ When.unknown) :
    ∃ res, scheduleTaskExecute timer w description = Except.ok res := by
  cases w with
  | noSchedule => exact ⟨_, rfl⟩
  | scheduled d => exact ⟨_, rfl⟩
  | delayed n => exact ⟨_, rfl⟩
  | cron c => exact ⟨_, rfl⟩
  | unknown => exact absurd rfl h

/-- Witness for the amended C8: a failing timer capability still yields a
textual result. -/
theorem scheduleTask_total_witness :
    ∃ res, scheduleTaskExecute (fun _ _ _ => Except.error "Error: boom")
      (When.cron "* * * * *") "nightly" = Except.ok res :=
  scheduleTask_total (fun _ _ _ => Except.error "Error: boom") "nightly"
    (When.cron "* * * * *") (by decide)
